import Mathlib

/-!
# Conversion of a Rancher container description into Docker configurations

A shallow embedding of `convert/docker.go` and `convert/utils.go`.

Conventions of the embedding:

* A Go `string` is a Lean `String`.  The only separator the code splits on is the
  one-byte string ":" and no byte of a multi-byte UTF-8 sequence equals that byte, so
  splitting a list of characters agrees with splitting the underlying bytes.
* A Go `map` is an association list with at most one entry per key (`GoMap`).  The list
  order stands for one possible iteration order; theorems quantify over all lists and so
  over all orders.  A `map[string]struct{}` is a `GoMap String Unit`.
* A slice or map field that the code distinguishes as "left unset" (nil) from "assigned"
  is an `Option`; `none` is the nil value.  For `Binds` a nil and an empty slice are both
  the empty list.
* `fmt.Sprintf("%s:%s:%s", a, b, c)` is `a ++ ":" ++ b ++ ":" ++ c`; `%v` of an integer
  and `strconv.Itoa` are the signed decimal rendering `Itoa`.
* The library functions the code calls (`strings.SplitN`, `strings.Split`,
  `json.Marshal`, `json.Unmarshal`) are modelled next to the code that calls them.
* A run-time panic (an index out of range in `setupDevice`) is the result `none`.
* An `interface{}` value is a `GoValue` where the code formats it with `%v` or asserts
  that it is a string, and an `OptionBag` (its JSON encoding) where the code marshals it.
-/

namespace Convert

/-! ## Go maps -/

/-- Association-list model of a Go map. -/
structure GoMap (K : Type) (V : Type) where
  entries : List (K × V)
deriving DecidableEq, Repr

namespace GoMap

variable {K V : Type}

/-- The empty map, `map[K]V{}`. -/
def empty : GoMap K V := ⟨[]⟩

/-- Lookup on the entry list: the value of the first entry with key `k`. -/
def lookupEntries [DecidableEq K] (k : K) : List (K × V) → Option V
  | [] => none
  | (k', v) :: rest => if k' = k then some v else lookupEntries k rest

/-- Assignment on the entry list: overwrite the entry of `k` or add a new one at the end. -/
def storeEntries [DecidableEq K] (k : K) (v : V) : List (K × V) → List (K × V)
  | [] => [(k, v)]
  | (k', v') :: rest =>
    if k' = k then (k, v) :: rest else (k', v') :: storeEntries k v rest

/-- The two-result index expression `v, ok := m[k]`. -/
def get? [DecidableEq K] (m : GoMap K V) (k : K) : Option V :=
  lookupEntries k m.entries

/-- The assignment `m[k] = v`. -/
def store [DecidableEq K] (m : GoMap K V) (k : K) (v : V) : GoMap K V :=
  ⟨storeEntries k v m.entries⟩

/-- The keys of the map. -/
def keys (m : GoMap K V) : List K :=
  m.entries.map Prod.fst

/-- Length of the map, `len(m)`. -/
def len (m : GoMap K V) : Nat :=
  m.entries.length

/-- Membership of a key, the `ok` of `_, ok := m[k]`. -/
def contains [DecidableEq K] (m : GoMap K V) (k : K) : Bool :=
  (m.get? k).isSome

end GoMap

/-! ## Strings -/

/-- The text before the first occurrence of `sep` and the text after it (`strings.Index`
followed by the two slicings of `genSplit`); `none` when `sep` does not occur. -/
def cut (sep : Char) : List Char → Option (List Char × List Char)
  | [] => none
  | c :: cs =>
    if c = sep then some ([], cs)
    else match cut sep cs with
      | none => none
      | some (a, rest) => some (c :: a, rest)

/-- The loop of `strings.genSplit`: split off at most `k` leading parts, the remainder of
the string is the last part. -/
def splitLoop (sep : Char) : Nat → List Char → List (List Char)
  | 0, s => [s]
  | k + 1, s =>
    match cut sep s with
    | none => [s]
    | some (a, rest) => a :: splitLoop sep k rest

/-- The number of occurrences of `sep`, `strings.Count`. -/
def Count (s : String) (sep : Char) : Nat :=
  s.data.count sep

/-- The function `strings.SplitN(s, sep, n)` for a one-character separator: no parts for
`n = 0`, all parts for `n < 0`, at most `n` parts otherwise. -/
def SplitN (s : String) (sep : Char) (n : Int) : List String :=
  if n = 0 then []
  else
    let m : Nat := if n < 0 then Count s sep + 1 else n.toNat
    (splitLoop sep (m - 1) s.data).map String.mk

/-- The function `strings.Split(s, sep)`, which is `SplitN` with `n = -1`. -/
def Split (s : String) (sep : Char) : List String :=
  SplitN s sep (-1)

/-- Signed decimal rendering: `strconv.Itoa`, and `%v` of an integer. -/
def Itoa (i : Int) : String :=
  match i with
  | Int.ofNat n => Nat.repr n
  | Int.negSucc n => "-" ++ Nat.repr (n + 1)

/-- The format `fmt.Sprintf("%s:%s:%s", a, b, c)`. -/
def sprintf3 (a b c : String) : String :=
  a ++ ":" ++ b ++ ":" ++ c

/-! ## Data model -/

/-- The type `v3.PublicEndpoint`, with the fields the conversion reads. -/
structure PublicEndpoint where
  PrivatePort : Int
  Protocol : String
  PublicPort : Int
  BindIpAddress : String
deriving DecidableEq, Repr

/-- The type `nat.PortBinding`. -/
structure PortBinding where
  HostIP : String
  HostPort : String
deriving DecidableEq, Repr

/-- The type `container.DeviceMapping`. -/
structure DeviceMapping where
  PathOnHost : String
  PathInContainer : String
  CgroupPermissions : String
deriving DecidableEq, Repr

/-- The type `blkiodev.WeightDevice`; `Weight` is a `uint16`. -/
structure WeightDevice where
  Path : String
  Weight : Nat
deriving DecidableEq, Repr

/-- The type `blkiodev.ThrottleDevice`; `Rate` is a `uint64`. -/
structure ThrottleDevice where
  Path : String
  Rate : Nat
deriving DecidableEq, Repr

/-- A number literal of a JSON document: `integer i` is a literal made of an optional
minus sign and decimal digits only, with value `i`; `decimal` is any other literal (one with
a fraction or an exponent, or a negative zero). -/
inductive JsonNumber where
  | integer (i : Int)
  | decimal
deriving DecidableEq, Repr

/-- A JSON document, the output of `json.Marshal`. -/
inductive Json where
  | null
  | bool (b : Bool)
  | number (n : JsonNumber)
  | string (s : String)
  | array (elems : List Json)
  | object (members : List (String × Json))

/-- One value of `BlkioDeviceOptions` (an `interface{}`) as `json.Marshal` sees it: `none`
when the value has no JSON encoding and `Marshal` returns an error, otherwise the document
it is encoded to. -/
abbrev OptionBag := Option Json

/-- The type `v3.Container`, with the fields read by the conversions modelled here.
`DataVolumesFrom` is tested against nil by the code, so it is an `Option`. -/
structure Container where
  ExternalId : String
  PublicEndpoints : List PublicEndpoint
  DataVolumes : List String
  DataVolumesFrom : Option (List String)
  Devices : List String
  BlkioDeviceOptions : GoMap String OptionBag

/-- The zero value of `v3.Container`, the result of indexing a map at a missing key. -/
def Container.zero : Container :=
  { ExternalId := "", PublicEndpoints := [], DataVolumes := [], DataVolumesFrom := none,
    Devices := [], BlkioDeviceOptions := GoMap.empty }

/-- The type `Reference`. -/
structure Reference where
  VolumeFromContainers : GoMap String Container
  DockerRoot : String

/-- The type `container.Config`, with the fields written by the conversions modelled here. -/
structure Config where
  ExposedPorts : GoMap String Unit
  Volumes : GoMap String Unit
deriving DecidableEq, Repr

/-- The type `container.HostConfig`, with the fields written by the conversions modelled
here. -/
structure HostConfig where
  Binds : List String
  PortBindings : Option (GoMap String (List PortBinding))
  VolumesFrom : Option (List String)
  Devices : List DeviceMapping
  BlkioWeightDevice : Option (List WeightDevice)
  BlkioDeviceReadIOps : Option (List ThrottleDevice)
  BlkioDeviceWriteIOps : Option (List ThrottleDevice)
  BlkioDeviceReadBps : Option (List ThrottleDevice)
  BlkioDeviceWriteBps : Option (List ThrottleDevice)
deriving DecidableEq, Repr

/-- The values `&container.Config{}` and `&container.HostConfig{}` that
`RancherToDockerConfigs` starts from. -/
def Config.fresh : Config :=
  { ExposedPorts := GoMap.empty, Volumes := GoMap.empty }

/-- The zero host configuration. -/
def HostConfig.fresh : HostConfig :=
  { Binds := [], PortBindings := none, VolumesFrom := none, Devices := [],
    BlkioWeightDevice := none, BlkioDeviceReadIOps := none, BlkioDeviceWriteIOps := none,
    BlkioDeviceReadBps := none, BlkioDeviceWriteBps := none }

/-! ## setupPorts -/

/-- The variables of the loop of `setupPorts`. -/
structure PortsLoop where
  exposedPorts : GoMap String Unit
  bindings : GoMap String (List PortBinding)
deriving DecidableEq, Repr

/-- The key `fmt.Sprintf("%v/%v", endpoint.PrivatePort, endpoint.Protocol)`. -/
def portKey (privatePort : Int) (protocol : String) : String :=
  Itoa privatePort ++ "/" ++ protocol

/-- One iteration of the loop of `setupPorts`.  The conversion `int(endpoint.PublicPort)`
of an `int64` is the identity where `int` has 64 bits. -/
def portsStep (st : PortsLoop) (endpoint : PublicEndpoint) : PortsLoop :=
  if endpoint.PrivatePort ≠ 0 then
    let bind := portKey endpoint.PrivatePort endpoint.Protocol
    let bindAddr := endpoint.BindIpAddress
    let bindings :=
      match st.bindings.get? bind with
      | none =>
        st.bindings.store bind
          [{ HostIP := bindAddr, HostPort := Itoa endpoint.PublicPort }]
      | some old =>
        st.bindings.store bind
          (old ++ [{ HostIP := bindAddr, HostPort := Itoa endpoint.PublicPort }])
    { exposedPorts := st.exposedPorts.store bind (), bindings := bindings }
  else
    st

/-- The loop of `setupPorts`, from the state before the first iteration. -/
def portsLoop (endpoints : List PublicEndpoint) : PortsLoop :=
  endpoints.foldl portsStep ⟨GoMap.empty, GoMap.empty⟩

/-- The function `setupPorts`. -/
def setupPorts (config : Config) (hostConfig : HostConfig) (containerSpec : Container) :
    Config × HostConfig :=
  let st := portsLoop containerSpec.PublicEndpoints
  let config := { config with ExposedPorts := st.exposedPorts }
  if st.bindings.len > 0 then
    (config, { hostConfig with PortBindings := some st.bindings })
  else
    (config, hostConfig)

/-! ## setupVolume -/

/-- The variables of the data-volume loop of `setupVolume`: `config.Volumes`, `volumesMap`
and `binds`. -/
structure VolumeLoop where
  configVolumes : GoMap String Unit
  volumesMap : GoMap String Unit
  binds : List String
deriving DecidableEq, Repr

/-- One iteration of the data-volume loop of `setupVolume`. -/
def volumeStep (reference : Reference) (st : VolumeLoop) (dataVolume : String) : VolumeLoop :=
  match SplitN dataVolume ':' 3 with
  | [] => st
  -- len(parts) == 1
  | [p0] => { st with configVolumes := st.configVolumes.store p0 () }
  -- len(parts) > 1
  | p0 :: p1 :: rest =>
    let volumesMap := st.volumesMap.store p1 ()
    let mode := match rest with
      | [p2] => p2
      | _ => "rw"
    if p0 = "/var/lib/docker" ∧ p1 = "/var/lib/docker"
        ∧ reference.DockerRoot ≠ "/var/lib/docker" then
      { st with
        volumesMap := volumesMap.store reference.DockerRoot ()
        binds := st.binds ++ [sprintf3 reference.DockerRoot p1 mode,
                              sprintf3 reference.DockerRoot reference.DockerRoot mode] }
    else
      { st with
        volumesMap := volumesMap
        binds := st.binds ++ [sprintf3 p0 p1 mode] }

/-- The data-volume loop of `setupVolume`, from the state before the first iteration. -/
def volumeLoop (reference : Reference) (dataVolumes : List String) : VolumeLoop :=
  dataVolumes.foldl (volumeStep reference) ⟨GoMap.empty, GoMap.empty, []⟩

/-- The volumes-from loop of `setupVolume`. -/
def volumeFromsLoop (reference : Reference) (names : List String) : List String :=
  names.foldl
    (fun volumeFroms volumeFrom =>
      let c := (reference.VolumeFromContainers.get? volumeFrom).getD Container.zero
      if c.ExternalId ≠ "" then volumeFroms ++ [c.ExternalId] else volumeFroms)
    []

/-- The function `setupVolume`. -/
def setupVolume (config : Config) (hostConfig : HostConfig) (containerSpec : Container)
    (reference : Reference) : Config × HostConfig :=
  -- config.Volumes = map[string]struct{}{}
  let config := { config with Volumes := GoMap.empty }
  let st := volumeLoop reference containerSpec.DataVolumes
  -- the writes of the loop to config.Volumes
  let config := { config with Volumes := st.configVolumes }
  -- config.Volumes = volumesMap
  let config := { config with Volumes := st.volumesMap }
  let hostConfig := { hostConfig with Binds := hostConfig.Binds ++ st.binds }
  match containerSpec.DataVolumesFrom with
  | none => (config, hostConfig)
  | some names =>
    let volumeFroms := volumeFromsLoop reference names
    if volumeFroms.length > 0 then
      (config, { hostConfig with VolumesFrom := some volumeFroms })
    else
      (config, hostConfig)

/-! ## setupDevice -/

/-- One iteration of the loop of `setupDevice`; `none` is the run-time panic of an index
out of range. -/
def deviceStep (deviceMappings : List DeviceMapping) (device : String) :
    Option (List DeviceMapping) :=
  let parts := Split device ':'
  let permission :=
    match parts with
    | [_, _, p2] => p2
    | _ => "rwm"
  match parts with
  | p0 :: p1 :: _ =>
    some (deviceMappings ++
      [{ PathOnHost := p0, PathInContainer := p1, CgroupPermissions := permission }])
  | _ => none

/-- The loop of `setupDevice`. -/
def deviceLoop : List String → List DeviceMapping → Option (List DeviceMapping)
  | [], deviceMappings => some deviceMappings
  | device :: rest, deviceMappings =>
    match deviceStep deviceMappings device with
    | none => none
    | some deviceMappings => deviceLoop rest deviceMappings

/-- The function `setupDevice`; `none` is a panic. -/
def setupDevice (hostConfig : HostConfig) (containerSpec : Container) : Option HostConfig :=
  match deviceLoop containerSpec.Devices [] with
  | none => none
  | some deviceMappings => some { hostConfig with Devices := deviceMappings }

/-! ## setupDeviceOptions -/

/-- The type `deviceOptions`: `Weight` is a `uint16`, the other fields are `uint64`. -/
structure deviceOptions where
  Weight : Nat
  ReadIops : Nat
  WriteIops : Nat
  ReadBps : Nat
  WriteBps : Nat
deriving DecidableEq, Repr

/-- The zero value `deviceOptions{}`. -/
def deviceOptions.zero : deviceOptions :=
  { Weight := 0, ReadIops := 0, WriteIops := 0, ReadBps := 0, WriteBps := 0 }

/-- Case folding of `encoding/json` when it matches an object key with a field name: the
ASCII letters fold onto their lower case, and so does the long s (U+017F), the one letter
outside ASCII that folds onto a letter of the five field names. -/
def foldChar (c : Char) : Char :=
  if c = '\u017f' then 's' else c.toLower

/-- Whether an object key selects the field called `name`. -/
def keyMatches (key name : String) : Bool :=
  key.data.map foldChar = name.data.map foldChar

/-- Decoding of a JSON value into an unsigned integer field of `bits` bits: `none` leaves
the field as it is (a JSON null), `some (Except.error _)` is an `UnmarshalTypeError`. -/
def decodeUint (bits : Nat) : Json → Option (Except String Nat)
  | Json.null => none
  | Json.number (JsonNumber.integer i) =>
    if 0 ≤ i ∧ i < 2 ^ bits then some (Except.ok i.toNat)
    else some (Except.error "json: cannot unmarshal number into Go struct field")
  | _ => some (Except.error "json: cannot unmarshal value into Go struct field")

/-- Decoding of one object member into the record.  The first component is the record after
the member, the second tells whether a type error was saved. -/
def decodeMember (st : deviceOptions × Bool) (member : String × Json) : deviceOptions × Bool :=
  let store (bits : Nat) (set : Nat → deviceOptions) : deviceOptions × Bool :=
    match decodeUint bits member.2 with
    | none => st
    | some (Except.ok n) => (set n, st.2)
    | some (Except.error _) => (st.1, true)
  if keyMatches member.1 "Weight" then store 16 (fun n => { st.1 with Weight := n })
  else if keyMatches member.1 "ReadIops" then store 64 (fun n => { st.1 with ReadIops := n })
  else if keyMatches member.1 "WriteIops" then store 64 (fun n => { st.1 with WriteIops := n })
  else if keyMatches member.1 "ReadBps" then store 64 (fun n => { st.1 with ReadBps := n })
  else if keyMatches member.1 "WriteBps" then store 64 (fun n => { st.1 with WriteBps := n })
  else st

/-- The call `json.Unmarshal(raw, &v)` where `v` holds a pointer to a zero `deviceOptions`:
a null document stores nothing, an object is decoded member by member (unknown keys are
ignored, a later member overrides an earlier one, decoding goes on after a type error and
the error is returned at the end), every other document is a type error. -/
def jsonUnmarshal : Json → Except String deviceOptions
  | Json.null => Except.ok deviceOptions.zero
  | Json.object members =>
    let r := members.foldl decodeMember (deviceOptions.zero, false)
    if r.2 then Except.error "json: cannot unmarshal" else Except.ok r.1
  | _ => Except.error "json: cannot unmarshal"

/-- The function `Unmarshalling(data, &option)` at an `option` that is `deviceOptions{}`. -/
def Unmarshalling (data : OptionBag) : Except String deviceOptions :=
  match data with
  | none => Except.error "failed to marshall object"
  | some raw =>
    match jsonUnmarshal raw with
    | Except.error _ => Except.error "failed to unmarshall object"
    | Except.ok option => Except.ok option

/-- The five lists built by the loop of `setupDeviceOptions`. -/
structure BlkioLoop where
  blkioWeightDevice : List WeightDevice
  blkioDeviceReadIOps : List ThrottleDevice
  blkioDeviceWriteBps : List ThrottleDevice
  blkioDeviceReadBps : List ThrottleDevice
  blkioDeviceWriteIOps : List ThrottleDevice
deriving DecidableEq, Repr

/-- One iteration of the loop of `setupDeviceOptions`, for the map entry `dev ↦ value`. -/
def deviceOptionsStep (st : BlkioLoop) (entry : String × OptionBag) : BlkioLoop :=
  let dev := entry.1
  match Unmarshalling entry.2 with
  | Except.error _ => st
  | Except.ok option =>
    let st :=
      if option.Weight ≠ 0 then
        { st with blkioWeightDevice :=
            st.blkioWeightDevice ++ [{ Path := dev, Weight := option.Weight }] }
      else st
    let st :=
      if option.ReadIops ≠ 0 then
        { st with blkioDeviceReadIOps :=
            st.blkioDeviceReadIOps ++ [{ Path := dev, Rate := option.ReadIops }] }
      else st
    let st :=
      if option.WriteIops ≠ 0 then
        { st with blkioDeviceWriteIOps :=
            st.blkioDeviceWriteIOps ++ [{ Path := dev, Rate := option.WriteIops }] }
      else st
    let st :=
      if option.ReadBps ≠ 0 then
        { st with blkioDeviceReadBps :=
            st.blkioDeviceReadBps ++ [{ Path := dev, Rate := option.ReadBps }] }
      else st
    let st :=
      if option.WriteBps ≠ 0 then
        { st with blkioDeviceWriteBps :=
            st.blkioDeviceWriteBps ++ [{ Path := dev, Rate := option.WriteBps }] }
      else st
    st

/-- The loop of `setupDeviceOptions` over the entries of the options map. -/
def deviceOptionsLoop (devOptions : GoMap String OptionBag) : BlkioLoop :=
  devOptions.entries.foldl deviceOptionsStep ⟨[], [], [], [], []⟩

/-- The function `setupDeviceOptions`; the second component is the returned error, which
is always nil. -/
def setupDeviceOptions (hostConfig : HostConfig) (spec : Container) :
    HostConfig × Option String :=
  let st := deviceOptionsLoop spec.BlkioDeviceOptions
  let hostConfig :=
    if st.blkioWeightDevice.length > 0 then
      { hostConfig with BlkioWeightDevice := some st.blkioWeightDevice }
    else hostConfig
  let hostConfig :=
    if st.blkioDeviceReadIOps.length > 0 then
      { hostConfig with BlkioDeviceReadIOps := some st.blkioDeviceReadIOps }
    else hostConfig
  let hostConfig :=
    if st.blkioDeviceWriteIOps.length > 0 then
      { hostConfig with BlkioDeviceWriteIOps := some st.blkioDeviceWriteIOps }
    else hostConfig
  let hostConfig :=
    if st.blkioDeviceReadBps.length > 0 then
      { hostConfig with BlkioDeviceReadBps := some st.blkioDeviceReadBps }
    else hostConfig
  let hostConfig :=
    if st.blkioDeviceWriteBps.length > 0 then
      { hostConfig with BlkioDeviceWriteBps := some st.blkioDeviceWriteBps }
    else hostConfig
  (hostConfig, none)

/-! ## RancherToDockerConfigs -/

/-- The function `RancherToDockerConfigs`, restricted to the fields of the two
configurations that the special conversions write; the plain field copies, `setupLogConfig`
and `setupHeathConfig` write other fields only.  The result is `none` when `setupDevice`
panics. -/
def RancherToDockerConfigs (containerSpec : Container) (reference : Reference) :
    Option (Config × HostConfig) :=
  let config := Config.fresh
  let hostConfig := HostConfig.fresh
  -- hostConfig.Binds = hostConfig.Binds
  let hostConfig := { hostConfig with Binds := hostConfig.Binds }
  let (config, hostConfig) := setupPorts config hostConfig containerSpec
  let (config, hostConfig) := setupVolume config hostConfig containerSpec reference
  match setupDevice hostConfig containerSpec with
  | none => none
  | some hostConfig =>
    let hostConfig := (setupDeviceOptions hostConfig containerSpec).1
    some (config, hostConfig)


/-! ## convertEnv, ToMapString -/

/-- A dynamically typed Go value (`interface{}`) as the verb `%v` and the type assertion
`v.(string)` see it: nil, a boolean, an integer, a string, or a value of another dynamic
type (a float, a nested map or slice), which is given with its `%v` rendering. -/
inductive GoValue where
  | nil
  | bool (b : Bool)
  | int (i : Int)
  | string (s : String)
  | other (rendering : String)
deriving DecidableEq, Repr

/-- The rendering of a value by the verb `%v`. -/
def Sprint (v : GoValue) : String :=
  match v with
  | GoValue.nil => "<nil>"
  | GoValue.bool b => if b then "true" else "false"
  | GoValue.int i => Itoa i
  | GoValue.string s => s
  | GoValue.other rendering => rendering

/-- The function `convertEnv`; the entries are visited in the order of the entry list. -/
def convertEnv (envs : GoMap String GoValue) : List String :=
  envs.entries.foldl (fun r kv => r ++ [kv.1 ++ ":" ++ Sprint kv.2]) []

/-- The function `InterfaceToString`. -/
def InterfaceToString (v : GoValue) : String :=
  match v with
  | GoValue.string value => value
  | _ => ""

/-- The function `ToMapString`. -/
def ToMapString (m : GoMap String GoValue) : GoMap String String :=
  m.entries.foldl (fun r kv => r.store kv.1 (InterfaceToString kv.2)) GoMap.empty

/-! ## Auxiliary definitions -/

/-- The number that a list of decimal digit characters denotes; the inverse of the decimal
rendering, used to show that the rendering is injective. -/
def decimalValue (l : List Char) : Nat :=
  Nat.ofDigits 10 (l.reverse.map (fun c => c.toNat - 48))

/-- The bindings that the endpoints with a non-zero private port and with key `k`
contribute, in input order. -/
def bindingsOf (k : String) (endpoints : List PublicEndpoint) : List PortBinding :=
  (endpoints.filter
    (fun e => decide (e.PrivatePort ≠ 0 ∧ portKey e.PrivatePort e.Protocol = k))).map
    (fun e => { HostIP := e.BindIpAddress, HostPort := Itoa e.PublicPort })

/-- The external id that one volumes-from name resolves to: that of its entry in
`VolumeFromContainers`, when the entry exists and the id is not empty. -/
def resolvedId (reference : Reference) (name : String) : Option String :=
  match reference.VolumeFromContainers.get? name with
  | none => none
  | some c => if c.ExternalId = "" then none else some c.ExternalId

/-- The entry that one map entry of the device options adds to the weight list. -/
def weightEntry (entry : String × OptionBag) : Option WeightDevice :=
  match Unmarshalling entry.2 with
  | Except.error _ => none
  | Except.ok option =>
    if option.Weight ≠ 0 then some { Path := entry.1, Weight := option.Weight } else none

/-- The entry that one map entry of the device options adds to the throttle list of the
field read by `field`. -/
def throttleEntry (field : deviceOptions → Nat) (entry : String × OptionBag) :
    Option ThrottleDevice :=
  match Unmarshalling entry.2 with
  | Except.error _ => none
  | Except.ok option =>
    if field option ≠ 0 then some { Path := entry.1, Rate := field option } else none

/-- The device spec with host path `p.1`, container path `p.2.1` and, when there is one,
permission `p.2.2`. -/
def deviceSpecOf (p : String × String × Option String) : String :=
  match p.2.2 with
  | none => p.1 ++ ":" ++ p.2.1
  | some perm => p.1 ++ ":" ++ p.2.1 ++ ":" ++ perm

/-- The mapping of a device spec with host path `p.1`, container path `p.2.1` and, when
there is one, permission `p.2.2`: the permission is "rwm" when the spec has none. -/
def mappingOf (p : String × String × Option String) : DeviceMapping :=
  { PathOnHost := p.1, PathInContainer := p.2.1, CgroupPermissions := p.2.2.getD "rwm" }

/-- The width in bits of the field of `deviceOptions` that an object key selects, if it
selects one. -/
def fieldBits (key : String) : Option Nat :=
  if keyMatches key "Weight" then some 16
  else if keyMatches key "ReadIops" then some 64
  else if keyMatches key "WriteIops" then some 64
  else if keyMatches key "ReadBps" then some 64
  else if keyMatches key "WriteBps" then some 64
  else none

/-! ## Maps: lemmas -/

theorem GoMap.lookupEntries_storeEntries {K V : Type} [DecidableEq K] (k k' : K) (v : V)
    (l : List (K × V)) :
    GoMap.lookupEntries k' (GoMap.storeEntries k v l)
      = if k = k' then some v else GoMap.lookupEntries k' l := by
  induction l with
  | nil => simp [GoMap.storeEntries, GoMap.lookupEntries]
  | cons hd tl ih =>
    obtain ⟨a, b⟩ := hd
    by_cases h : a = k
    · subst h
      by_cases h' : a = k' <;> simp [GoMap.storeEntries, GoMap.lookupEntries, h']
    · by_cases h' : a = k'
      · subst h'
        have h'' : ¬ k = a := fun e => h e.symm
        simp [GoMap.storeEntries, GoMap.lookupEntries, h, h'']
      · simp [GoMap.storeEntries, GoMap.lookupEntries, h, h', ih]

theorem GoMap.get?_store {K V : Type} [DecidableEq K] (m : GoMap K V) (k k' : K) (v : V) :
    (m.store k v).get? k' = if k = k' then some v else m.get? k' :=
  GoMap.lookupEntries_storeEntries k k' v m.entries

theorem GoMap.get?_empty {K V : Type} [DecidableEq K] (k : K) :
    (GoMap.empty : GoMap K V).get? k = none := rfl

theorem GoMap.len_eq_zero_iff {K V : Type} [DecidableEq K] (m : GoMap K V) :
    m.len = 0 ↔ ∀ k, m.get? k = none := by
  obtain ⟨l⟩ := m
  cases l with
  | nil => simp [GoMap.len, GoMap.get?, GoMap.lookupEntries]
  | cons hd tl =>
    simp only [GoMap.len, List.length_cons, Nat.succ_ne_zero, false_iff, not_forall]
    exact ⟨hd.1, by simp [GoMap.get?, GoMap.lookupEntries]⟩

theorem GoMap.mem_storeEntries_keys {K V : Type} [DecidableEq K] (k k' : K) (v : V)
    (l : List (K × V)) :
    k' ∈ (GoMap.storeEntries k v l).map Prod.fst ↔ k' = k ∨ k' ∈ l.map Prod.fst := by
  induction l with
  | nil => simp [GoMap.storeEntries]
  | cons hd tl ih =>
    obtain ⟨a, b⟩ := hd
    by_cases h : a = k
    · subst h
      simp [GoMap.storeEntries]
    · simp only [GoMap.storeEntries, if_neg h, List.map_cons, List.mem_cons, ih]
      tauto

theorem GoMap.mem_keys_store {K V : Type} [DecidableEq K] (m : GoMap K V) (k k' : K) (v : V) :
    k' ∈ (m.store k v).keys ↔ k' = k ∨ k' ∈ m.keys := by
  exact GoMap.mem_storeEntries_keys k k' v m.entries

theorem GoMap.not_mem_keys_empty {K V : Type} (k : K) : k ∉ (GoMap.empty : GoMap K V).keys := by
  simp [GoMap.empty, GoMap.keys]

/-! ## Splitting: lemmas -/

theorem cut_eq_none {sep : Char} {l : List Char} (h : sep ∉ l) : cut sep l = none := by
  induction l with
  | nil => rfl
  | cons c cs ih =>
    have hc : c ≠ sep := fun e => h (by simp [e])
    have hcs : sep ∉ cs := fun e => h (by simp [e])
    simp [cut, hc, ih hcs]

theorem cut_append {sep : Char} {a : List Char} (h : sep ∉ a) (rest : List Char) :
    cut sep (a ++ sep :: rest) = some (a, rest) := by
  induction a with
  | nil => simp [cut]
  | cons c cs ih =>
    have hc : c ≠ sep := fun e => h (by simp [e])
    have hcs : sep ∉ cs := fun e => h (by simp [e])
    simp [cut, hc, ih hcs]

theorem SplitN_three_one (s : String) (h : ':' ∉ s.toList) : SplitN s ':' 3 = [s] := by
  have h' : ':' ∉ s.data := h
  simp [SplitN, splitLoop, cut_eq_none h']

theorem SplitN_three_two (h c : String) (hh : ':' ∉ h.toList) (hc : ':' ∉ c.toList) :
    SplitN (h ++ ":" ++ c) ':' 3 = [h, c] := by
  have hh' : ':' ∉ h.data := hh
  have hc' : ':' ∉ c.data := hc
  have e : (h ++ ":" ++ c).data = h.data ++ ':' :: c.data := by simp
  simp [SplitN, splitLoop, e, cut_append hh', cut_eq_none hc']

theorem SplitN_three_three (h c m : String) (hh : ':' ∉ h.toList) (hc : ':' ∉ c.toList) :
    SplitN (h ++ ":" ++ c ++ ":" ++ m) ':' 3 = [h, c, m] := by
  have hh' : ':' ∉ h.data := hh
  have hc' : ':' ∉ c.data := hc
  have e : (h ++ ":" ++ c ++ ":" ++ m).data = h.data ++ ':' :: (c.data ++ ':' :: m.data) := by
    simp
  simp [SplitN, splitLoop, e, cut_append hh', cut_append hc']

/-! ## setupVolume: lemmas -/

theorem volumeLoop_singleton (reference : Reference) (dataVolume : String) :
    volumeLoop reference [dataVolume]
      = volumeStep reference ⟨GoMap.empty, GoMap.empty, []⟩ dataVolume := rfl

theorem volumeStep_binds (reference : Reference) (st : VolumeLoop) (dataVolume : String) :
    (volumeStep reference st dataVolume).binds
      = st.binds ++ (volumeLoop reference [dataVolume]).binds := by
  rw [volumeLoop_singleton]
  unfold volumeStep
  split
  · simp
  · simp
  · split <;> split_ifs <;> simp

theorem volumeStep_volumesMap_keys (reference : Reference) (st : VolumeLoop)
    (dataVolume : String) (k : String) :
    k ∈ (volumeStep reference st dataVolume).volumesMap.keys
      ↔ k ∈ st.volumesMap.keys ∨ k ∈ (volumeLoop reference [dataVolume]).volumesMap.keys := by
  rw [volumeLoop_singleton]
  unfold volumeStep
  split
  · simp [GoMap.not_mem_keys_empty]
  · simp [GoMap.not_mem_keys_empty]
  · split <;> split_ifs <;> simp only [GoMap.mem_keys_store, GoMap.not_mem_keys_empty] <;> tauto

theorem foldl_volumeStep_binds (reference : Reference) (l : List String) (st : VolumeLoop) :
    (l.foldl (volumeStep reference) st).binds = st.binds ++ (volumeLoop reference l).binds := by
  induction l generalizing st with
  | nil => simp [volumeLoop]
  | cons a tl ih =>
    have h1 := ih (volumeStep reference st a)
    have h2 := ih (volumeStep reference ⟨GoMap.empty, GoMap.empty, []⟩ a)
    simp only [volumeLoop, List.foldl_cons] at h1 h2 ⊢
    rw [h1, h2, volumeStep_binds reference st a, volumeLoop_singleton]
    simp

theorem foldl_volumeStep_keys (reference : Reference) (l : List String) (st : VolumeLoop)
    (k : String) :
    k ∈ (l.foldl (volumeStep reference) st).volumesMap.keys
      ↔ k ∈ st.volumesMap.keys ∨ k ∈ (volumeLoop reference l).volumesMap.keys := by
  induction l generalizing st with
  | nil => simp [volumeLoop, GoMap.not_mem_keys_empty]
  | cons a tl ih =>
    have h1 := ih (volumeStep reference st a)
    have h2 := ih (volumeStep reference ⟨GoMap.empty, GoMap.empty, []⟩ a)
    simp only [volumeLoop, List.foldl_cons] at h1 h2 ⊢
    rw [h1, h2, volumeStep_volumesMap_keys reference st a, volumeLoop_singleton]
    tauto

theorem volumeLoop_append_binds (reference : Reference) (l₁ l₂ : List String) :
    (volumeLoop reference (l₁ ++ l₂)).binds
      = (volumeLoop reference l₁).binds ++ (volumeLoop reference l₂).binds := by
  simp only [volumeLoop, List.foldl_append]
  exact foldl_volumeStep_binds reference l₂ _

theorem volumeLoop_append_keys (reference : Reference) (l₁ l₂ : List String) (k : String) :
    k ∈ (volumeLoop reference (l₁ ++ l₂)).volumesMap.keys
      ↔ k ∈ (volumeLoop reference l₁).volumesMap.keys
        ∨ k ∈ (volumeLoop reference l₂).volumesMap.keys := by
  simp only [volumeLoop, List.foldl_append]
  exact foldl_volumeStep_keys reference l₂ _ k

theorem setupVolume_Binds (config : Config) (hostConfig : HostConfig) (containerSpec : Container)
    (reference : Reference) :
    (setupVolume config hostConfig containerSpec reference).2.Binds
      = hostConfig.Binds ++ (volumeLoop reference containerSpec.DataVolumes).binds := by
  unfold setupVolume
  split
  · rfl
  · dsimp only
    split_ifs <;> rfl

theorem setupVolume_Volumes (config : Config) (hostConfig : HostConfig)
    (containerSpec : Container) (reference : Reference) :
    (setupVolume config hostConfig containerSpec reference).1.Volumes
      = (volumeLoop reference containerSpec.DataVolumes).volumesMap := by
  unfold setupVolume
  split
  · rfl
  · dsimp only
    split_ifs <;> rfl

theorem volumeLoop_single_part (reference : Reference) (s : String) (h : ':' ∉ s.toList) :
    volumeLoop reference [s] = ⟨GoMap.empty.store s (), GoMap.empty, []⟩ := by
  rw [volumeLoop_singleton]
  unfold volumeStep
  rw [SplitN_three_one s h]

theorem volumeLoop_two_parts (reference : Reference) (dataVolume p0 p1 : String)
    (hsplit : SplitN dataVolume ':' 3 = [p0, p1]) :
    volumeLoop reference [dataVolume] =
      if p0 = "/var/lib/docker" ∧ p1 = "/var/lib/docker"
          ∧ reference.DockerRoot ≠ "/var/lib/docker" then
        ⟨GoMap.empty, (GoMap.empty.store p1 ()).store reference.DockerRoot (),
          [sprintf3 reference.DockerRoot p1 "rw",
           sprintf3 reference.DockerRoot reference.DockerRoot "rw"]⟩
      else
        ⟨GoMap.empty, GoMap.empty.store p1 (), [sprintf3 p0 p1 "rw"]⟩ := by
  rw [volumeLoop_singleton]
  unfold volumeStep
  rw [hsplit]
  simp

theorem volumeLoop_three_parts (reference : Reference) (dataVolume p0 p1 p2 : String)
    (hsplit : SplitN dataVolume ':' 3 = [p0, p1, p2]) :
    volumeLoop reference [dataVolume] =
      if p0 = "/var/lib/docker" ∧ p1 = "/var/lib/docker"
          ∧ reference.DockerRoot ≠ "/var/lib/docker" then
        ⟨GoMap.empty, (GoMap.empty.store p1 ()).store reference.DockerRoot (),
          [sprintf3 reference.DockerRoot p1 p2,
           sprintf3 reference.DockerRoot reference.DockerRoot p2]⟩
      else
        ⟨GoMap.empty, GoMap.empty.store p1 (), [sprintf3 p0 p1 p2]⟩ := by
  rw [volumeLoop_singleton]
  unfold volumeStep
  rw [hsplit]
  simp

/-- The literal bind of a redirected spec differs from both binds that replace it. -/
theorem redirected_binds_ne_literal (root mode : String) (hroot : root ≠ "/var/lib/docker") :
    sprintf3 "/var/lib/docker" "/var/lib/docker" mode ≠ sprintf3 root "/var/lib/docker" mode
      ∧ sprintf3 "/var/lib/docker" "/var/lib/docker" mode ≠ sprintf3 root root mode := by
  have hdata : root.data ≠ "/var/lib/docker".data := fun e => hroot (String.ext e)
  constructor
  · intro e
    have e' := congrArg String.data e
    simp only [sprintf3, String.data_append] at e'
    rw [List.append_left_inj, List.append_left_inj, List.append_left_inj,
      List.append_left_inj] at e'
    exact hdata e'.symm
  · intro e
    have e' := congrArg String.data e
    simp only [sprintf3, String.data_append] at e'
    rw [List.append_left_inj, List.append_left_inj] at e'
    have hlen := congrArg List.length e'
    simp only [List.length_append, List.length_cons, List.length_nil] at hlen
    have e'' := (List.append_inj' e' (by simp only [List.length_cons, List.length_nil]; omega)).2
    exact hdata e''.symm

/-! ## setupVolume: data volumes -/

/-- C1 (the code departs from it): for a data-volume list made of one spec without ':',
the loop of `setupVolume` does store the path in `config.Volumes` and adds no bind mount,
but the final assignment `config.Volumes = volumesMap` replaces that set, so the
declared-volumes set of the result is empty and does not contain the path. -/
theorem setupVolume_single_part_dropped (config : Config) (hostConfig : HostConfig)
    (containerSpec : Container) (reference : Reference) (s : String)
    (hs : ':' ∉ s.toList) (hv : containerSpec.DataVolumes = [s]) :
    (volumeLoop reference containerSpec.DataVolumes).configVolumes.keys = [s]
      ∧ (setupVolume config hostConfig containerSpec reference).1.Volumes.keys = []
      ∧ (setupVolume config hostConfig containerSpec reference).2.Binds = hostConfig.Binds := by
  rw [setupVolume_Volumes, setupVolume_Binds, hv, volumeLoop_single_part reference s hs]
  simp [GoMap.store, GoMap.storeEntries, GoMap.empty, GoMap.keys]

theorem setupVolume_single_part_dropped_witness :
    (':' ∉ "/data".toList
      ∧ ({ Container.zero with DataVolumes := ["/data"] } : Container).DataVolumes = ["/data"])
    ∧ ((volumeLoop ⟨GoMap.empty, "/var/lib/docker"⟩
          ({ Container.zero with DataVolumes := ["/data"] } : Container).DataVolumes
        ).configVolumes.keys = ["/data"]
      ∧ (setupVolume Config.fresh HostConfig.fresh { Container.zero with DataVolumes := ["/data"] }
          ⟨GoMap.empty, "/var/lib/docker"⟩).1.Volumes.keys = []
      ∧ (setupVolume Config.fresh HostConfig.fresh { Container.zero with DataVolumes := ["/data"] }
          ⟨GoMap.empty, "/var/lib/docker"⟩).2.Binds = HostConfig.fresh.Binds) :=
  ⟨⟨by decide, rfl⟩,
    setupVolume_single_part_dropped Config.fresh HostConfig.fresh
      { Container.zero with DataVolumes := ["/data"] } ⟨GoMap.empty, "/var/lib/docker"⟩ "/data"
      (by decide) rfl⟩

/-- C3: when the Docker root is not "/var/lib/docker", a data-volume spec whose host and
container parts are both "/var/lib/docker", without a third part (then `mode` is "rw") or
with the third part `mode`, adds to the bind list exactly the two binds
`root:/var/lib/docker:mode` and `root:root:mode`, in that order, between the binds of the
specs before it and those of the specs after it; neither of the two is the literal bind
`/var/lib/docker:/var/lib/docker:mode`; and the root is in the declared-volumes set. -/
theorem setupVolume_redirects_docker_root (config : Config) (hostConfig : HostConfig)
    (containerSpec : Container) (reference : Reference) (before after : List String)
    (dataVolume mode : String)
    (hdv : (dataVolume = "/var/lib/docker" ++ ":" ++ "/var/lib/docker" ∧ mode = "rw")
      ∨ dataVolume = "/var/lib/docker" ++ ":" ++ "/var/lib/docker" ++ ":" ++ mode)
    (hv : containerSpec.DataVolumes = before ++ [dataVolume] ++ after)
    (hroot : reference.DockerRoot ≠ "/var/lib/docker") :
    (setupVolume config hostConfig containerSpec reference).2.Binds
        = hostConfig.Binds ++ (volumeLoop reference before).binds
          ++ [reference.DockerRoot ++ ":" ++ "/var/lib/docker" ++ ":" ++ mode,
              reference.DockerRoot ++ ":" ++ reference.DockerRoot ++ ":" ++ mode]
          ++ (volumeLoop reference after).binds
      ∧ "/var/lib/docker" ++ ":" ++ "/var/lib/docker" ++ ":" ++ mode
          ∉ [reference.DockerRoot ++ ":" ++ "/var/lib/docker" ++ ":" ++ mode,
             reference.DockerRoot ++ ":" ++ reference.DockerRoot ++ ":" ++ mode]
      ∧ reference.DockerRoot
          ∈ (setupVolume config hostConfig containerSpec reference).1.Volumes.keys := by
  have hone : volumeLoop reference [dataVolume]
      = ⟨GoMap.empty, (GoMap.empty.store "/var/lib/docker" ()).store reference.DockerRoot (),
          [sprintf3 reference.DockerRoot "/var/lib/docker" mode,
           sprintf3 reference.DockerRoot reference.DockerRoot mode]⟩ := by
    rcases hdv with ⟨hd, hm⟩ | hd
    · rw [hd, hm, volumeLoop_two_parts reference _ _ _
        (SplitN_three_two "/var/lib/docker" "/var/lib/docker" (by decide) (by decide))]
      simp [hroot]
    · rw [hd, volumeLoop_three_parts reference _ _ _ _
        (SplitN_three_three "/var/lib/docker" "/var/lib/docker" mode (by decide) (by decide))]
      simp [hroot]
  have hne := redirected_binds_ne_literal reference.DockerRoot mode hroot
  refine ⟨?_, ?_, ?_⟩
  · rw [setupVolume_Binds, hv, volumeLoop_append_binds, volumeLoop_append_binds, hone]
    simp [sprintf3]
  · simp only [List.mem_cons, List.mem_singleton, List.not_mem_nil, or_false, not_or]
    exact ⟨hne.1, hne.2⟩
  · rw [setupVolume_Volumes, hv, volumeLoop_append_keys, volumeLoop_append_keys, hone]
    simp [GoMap.mem_keys_store]

theorem setupVolume_redirects_docker_root_witness :
    (((("/var/lib/docker:/var/lib/docker:ro" : String)
            = "/var/lib/docker" ++ ":" ++ "/var/lib/docker" ∧ ("ro" : String) = "rw")
        ∨ ("/var/lib/docker:/var/lib/docker:ro" : String)
            = "/var/lib/docker" ++ ":" ++ "/var/lib/docker" ++ ":" ++ "ro")
      ∧ ({ Container.zero with
          DataVolumes := ["/a:/b", "/var/lib/docker:/var/lib/docker:ro", "/c"] } : Container
        ).DataVolumes = ["/a:/b"] ++ ["/var/lib/docker:/var/lib/docker:ro"] ++ ["/c"]
      ∧ (⟨GoMap.empty, "/mnt/data"⟩ : Reference).DockerRoot ≠ "/var/lib/docker")
    ∧ (setupVolume Config.fresh HostConfig.fresh
          { Container.zero with
            DataVolumes := ["/a:/b", "/var/lib/docker:/var/lib/docker:ro", "/c"] }
          ⟨GoMap.empty, "/mnt/data"⟩).2.Binds
        = ["/a:/b:rw", "/mnt/data:/var/lib/docker:ro", "/mnt/data:/mnt/data:ro"] := by
  refine ⟨⟨by decide, by decide, by decide⟩, ?_⟩
  have h := (setupVolume_redirects_docker_root Config.fresh HostConfig.fresh
    { Container.zero with
      DataVolumes := ["/a:/b", "/var/lib/docker:/var/lib/docker:ro", "/c"] }
    ⟨GoMap.empty, "/mnt/data"⟩ ["/a:/b"] ["/c"] "/var/lib/docker:/var/lib/docker:ro" "ro"
    (by decide) (by decide) (by decide)).1
  rw [h]
  decide

/-- C4, counterexample: with Docker root "/mnt/data" the three-part spec
"/var/lib/docker:/var/lib/docker:ro" does not produce the single bind equal to the spec. -/
theorem setupVolume_three_part_redirected :
    ¬ ((setupVolume Config.fresh HostConfig.fresh
          { Container.zero with DataVolumes := ["/var/lib/docker:/var/lib/docker:ro"] }
          ⟨GoMap.empty, "/mnt/data"⟩).2.Binds = ["/var/lib/docker:/var/lib/docker:ro"]
        ∧ "/var/lib/docker" ∈ (setupVolume Config.fresh HostConfig.fresh
          { Container.zero with DataVolumes := ["/var/lib/docker:/var/lib/docker:ro"] }
          ⟨GoMap.empty, "/mnt/data"⟩).1.Volumes.keys) := by
  decide

/-- C4, amended: for a three-part spec `h:c:m` with `h` and `c` free of ':', the container
path `c` is in the declared-volumes set for every reference; and unless the redirection
applies (`h` and `c` both "/var/lib/docker" and a Docker root different from it), the spec
adds exactly the one bind `h:c:m` to the bind list, between the binds of the specs before it
and those of the specs after it. -/
theorem setupVolume_three_part_bind (config : Config) (hostConfig : HostConfig)
    (containerSpec : Container) (reference : Reference) (before after : List String)
    (h c m : String) (hh : ':' ∉ h.toList) (hc : ':' ∉ c.toList)
    (hv : containerSpec.DataVolumes = before ++ [h ++ ":" ++ c ++ ":" ++ m] ++ after) :
    c ∈ (setupVolume config hostConfig containerSpec reference).1.Volumes.keys
      ∧ (¬ (h = "/var/lib/docker" ∧ c = "/var/lib/docker"
            ∧ reference.DockerRoot ≠ "/var/lib/docker") →
          (setupVolume config hostConfig containerSpec reference).2.Binds
            = hostConfig.Binds ++ (volumeLoop reference before).binds
              ++ [h ++ ":" ++ c ++ ":" ++ m] ++ (volumeLoop reference after).binds) := by
  have hone := volumeLoop_three_parts reference _ _ _ _ (SplitN_three_three h c m hh hc)
  constructor
  · rw [setupVolume_Volumes, hv, volumeLoop_append_keys, volumeLoop_append_keys, hone]
    split_ifs <;> simp [GoMap.mem_keys_store]
  · intro hno
    rw [setupVolume_Binds, hv, volumeLoop_append_binds, volumeLoop_append_binds, hone,
      if_neg hno]
    simp [sprintf3]

theorem setupVolume_three_part_bind_witness :
    (':' ∉ "/host".toList ∧ ':' ∉ "/ctr".toList
      ∧ ({ Container.zero with DataVolumes := ["/a:/b", "/host:/ctr:ro"] } : Container
          ).DataVolumes = ["/a:/b"] ++ ["/host" ++ ":" ++ "/ctr" ++ ":" ++ "ro"] ++ [])
    ∧ "/ctr" ∈ (setupVolume Config.fresh HostConfig.fresh
          { Container.zero with DataVolumes := ["/a:/b", "/host:/ctr:ro"] }
          ⟨GoMap.empty, "/mnt/data"⟩).1.Volumes.keys
    ∧ (setupVolume Config.fresh HostConfig.fresh
          { Container.zero with DataVolumes := ["/a:/b", "/host:/ctr:ro"] }
          ⟨GoMap.empty, "/mnt/data"⟩).2.Binds = ["/a:/b:rw", "/host:/ctr:ro"] := by
  have h := setupVolume_three_part_bind Config.fresh HostConfig.fresh
    { Container.zero with DataVolumes := ["/a:/b", "/host:/ctr:ro"] }
    ⟨GoMap.empty, "/mnt/data"⟩ ["/a:/b"] [] "/host" "/ctr" "ro" (by decide) (by decide)
    (by decide)
  refine ⟨⟨by decide, by decide, by decide⟩, h.1, ?_⟩
  rw [h.2 (by decide)]
  decide

/-- C5: for a two-part spec `h:c` with `h` and `c` free of ':' to which the redirection does
not apply (not both `h` and `c` equal to "/var/lib/docker", or a Docker root equal to it),
`setupVolume` adds exactly the one bind `h:c:rw` to the bind list, between the binds of the
specs before it and those of the specs after it, and `c` is in the declared-volumes set. -/
theorem setupVolume_two_part_bind (config : Config) (hostConfig : HostConfig)
    (containerSpec : Container) (reference : Reference) (before after : List String)
    (h c : String) (hh : ':' ∉ h.toList) (hc : ':' ∉ c.toList)
    (hv : containerSpec.DataVolumes = before ++ [h ++ ":" ++ c] ++ after)
    (hno : ¬ (h = "/var/lib/docker" ∧ c = "/var/lib/docker")
      ∨ reference.DockerRoot = "/var/lib/docker") :
    (setupVolume config hostConfig containerSpec reference).2.Binds
        = hostConfig.Binds ++ (volumeLoop reference before).binds
          ++ [h ++ ":" ++ c ++ ":" ++ "rw"] ++ (volumeLoop reference after).binds
      ∧ c ∈ (setupVolume config hostConfig containerSpec reference).1.Volumes.keys := by
  have hone := volumeLoop_two_parts reference _ _ _ (SplitN_three_two h c hh hc)
  have hno' : ¬ (h = "/var/lib/docker" ∧ c = "/var/lib/docker"
      ∧ reference.DockerRoot ≠ "/var/lib/docker") := by
    rintro ⟨h1, h2, h3⟩
    rcases hno with hno | hno
    · exact hno ⟨h1, h2⟩
    · exact h3 hno
  rw [if_neg hno'] at hone
  constructor
  · rw [setupVolume_Binds, hv, volumeLoop_append_binds, volumeLoop_append_binds, hone]
    simp [sprintf3]
  · rw [setupVolume_Volumes, hv, volumeLoop_append_keys, volumeLoop_append_keys, hone]
    simp [GoMap.mem_keys_store]

theorem setupVolume_two_part_bind_witness :
    (':' ∉ "/var/lib/docker".toList ∧ ':' ∉ "/var/lib/docker".toList
      ∧ ({ Container.zero with
            DataVolumes := ["/data", "/var/lib/docker:/var/lib/docker", "/x:/y:ro"] } : Container
          ).DataVolumes
          = ["/data"] ++ ["/var/lib/docker" ++ ":" ++ "/var/lib/docker"] ++ ["/x:/y:ro"]
      ∧ (¬ (("/var/lib/docker" : String) = "/var/lib/docker"
            ∧ ("/var/lib/docker" : String) = "/var/lib/docker")
          ∨ (⟨GoMap.empty, "/var/lib/docker"⟩ : Reference).DockerRoot = "/var/lib/docker"))
    ∧ (setupVolume Config.fresh HostConfig.fresh
          { Container.zero with
            DataVolumes := ["/data", "/var/lib/docker:/var/lib/docker", "/x:/y:ro"] }
          ⟨GoMap.empty, "/var/lib/docker"⟩).2.Binds
        = ["/var/lib/docker:/var/lib/docker:rw", "/x:/y:ro"] := by
  have h := setupVolume_two_part_bind Config.fresh HostConfig.fresh
    { Container.zero with
      DataVolumes := ["/data", "/var/lib/docker:/var/lib/docker", "/x:/y:ro"] }
    ⟨GoMap.empty, "/var/lib/docker"⟩ ["/data"] ["/x:/y:ro"] "/var/lib/docker"
    "/var/lib/docker" (by decide) (by decide) (by decide) (Or.inr rfl)
  refine ⟨⟨by decide, by decide, by decide, Or.inr rfl⟩, ?_⟩
  rw [h.1]
  decide

/-! ## RancherToDockerConfigs: lemmas -/

theorem cut_isSome_of_mem {sep : Char} {l : List Char} (h : sep ∈ l) :
    ∃ a rest, cut sep l = some (a, rest) := by
  induction l with
  | nil => simp at h
  | cons c cs ih =>
    by_cases hc : c = sep
    · exact ⟨[], cs, by simp [cut, hc]⟩
    · have hcs : sep ∈ cs := by
        rcases List.mem_cons.mp h with e | e
        · exact absurd e.symm hc
        · exact e
      obtain ⟨a, rest, e⟩ := ih hcs
      exact ⟨c :: a, rest, by simp [cut, hc, e]⟩

theorem splitLoop_ne_nil (sep : Char) (k : Nat) (s : List Char) : splitLoop sep k s ≠ [] := by
  cases k with
  | zero => simp [splitLoop]
  | succ k =>
    unfold splitLoop
    split <;> simp

theorem Split_of_mem (device : String) (h : ':' ∈ device.toList) :
    ∃ p0 p1 rest, Split device ':' = p0 :: p1 :: rest := by
  have h' : ':' ∈ device.data := h
  obtain ⟨a, r, e⟩ := cut_isSome_of_mem h'
  have hcount : 0 < device.data.count ':' := List.count_pos_iff.mpr h'
  obtain ⟨k, hk⟩ : ∃ k, device.data.count ':' = k + 1 := ⟨device.data.count ':' - 1, by omega⟩
  have hne := splitLoop_ne_nil ':' k r
  obtain ⟨x, xs, hx⟩ := List.exists_cons_of_ne_nil hne
  refine ⟨String.mk a, String.mk x, xs.map String.mk, ?_⟩
  simp [Split, SplitN, Count, hk, splitLoop, e, hx]

theorem deviceStep_isSome (deviceMappings : List DeviceMapping) (device : String)
    (h : ':' ∈ device.toList) : ∃ r, deviceStep deviceMappings device = some r := by
  obtain ⟨p0, p1, rest, e⟩ := Split_of_mem device h
  unfold deviceStep
  rw [e]
  exact ⟨_, rfl⟩

theorem deviceLoop_isSome (devices : List String) (deviceMappings : List DeviceMapping)
    (h : ∀ d ∈ devices, ':' ∈ d.toList) : ∃ r, deviceLoop devices deviceMappings = some r := by
  induction devices generalizing deviceMappings with
  | nil => exact ⟨_, rfl⟩
  | cons d tl ih =>
    obtain ⟨r, hr⟩ := deviceStep_isSome deviceMappings d (h d (by simp))
    obtain ⟨r', hr'⟩ := ih r (fun x hx => h x (by simp [hx]))
    exact ⟨r', by simp [deviceLoop, hr, hr']⟩

theorem setupPorts_Binds (config : Config) (hostConfig : HostConfig) (containerSpec : Container) :
    (setupPorts config hostConfig containerSpec).2.Binds = hostConfig.Binds := by
  unfold setupPorts
  dsimp only
  split_ifs <;> rfl

theorem setupDeviceOptions_Binds (hostConfig : HostConfig) (spec : Container) :
    (setupDeviceOptions hostConfig spec).1.Binds = hostConfig.Binds := by
  unfold setupDeviceOptions
  dsimp only
  split_ifs <;> rfl

theorem RancherToDockerConfigs_volumes (containerSpec : Container) (reference : Reference)
    (hd : ∀ d ∈ containerSpec.Devices, ':' ∈ d.toList) :
    ∃ config hostConfig, RancherToDockerConfigs containerSpec reference = some (config, hostConfig)
      ∧ hostConfig.Binds = (volumeLoop reference containerSpec.DataVolumes).binds
      ∧ config.Volumes = (volumeLoop reference containerSpec.DataVolumes).volumesMap := by
  obtain ⟨ds, hds⟩ := deviceLoop_isSome containerSpec.Devices [] hd
  unfold RancherToDockerConfigs
  simp only [setupDevice, hds]
  refine ⟨_, _, rfl, ?_, ?_⟩
  · rw [setupDeviceOptions_Binds]
    show (setupVolume _ _ containerSpec reference).2.Binds = _
    rw [setupVolume_Binds, setupPorts_Binds]
    rfl
  · exact setupVolume_Volumes _ _ _ _

/-- C2, counterexample: for `DataVolumes = ["/var/lib/docker:/var/lib/docker"]` and Docker
root "/mnt/data", `RancherToDockerConfigs` returns a result that does not have both the
stated binds and a declared-volumes set equal to exactly `{"/mnt/data"}`: the set also
holds "/var/lib/docker". -/
theorem RancherToDockerConfigs_example_volumes_refuted :
    ∃ config hostConfig,
      RancherToDockerConfigs
          { Container.zero with DataVolumes := ["/var/lib/docker:/var/lib/docker"] }
          ⟨GoMap.empty, "/mnt/data"⟩ = some (config, hostConfig)
        ∧ "/var/lib/docker" ∈ config.Volumes.keys
        ∧ ¬ (hostConfig.Binds = ["/mnt/data:/var/lib/docker:rw", "/mnt/data:/mnt/data:rw"]
            ∧ ∀ k, k ∈ config.Volumes.keys ↔ k = "/mnt/data") := by
  refine ⟨⟨GoMap.empty, ⟨[("/var/lib/docker", ()), ("/mnt/data", ())]⟩⟩,
    { HostConfig.fresh with
      Binds := ["/mnt/data:/var/lib/docker:rw", "/mnt/data:/mnt/data:rw"] },
    by decide, by decide, ?_⟩
  rintro ⟨-, hk⟩
  have hmem : "/var/lib/docker"
      ∈ (⟨[("/var/lib/docker", ()), ("/mnt/data", ())]⟩ : GoMap String Unit).keys := by
    decide
  exact absurd ((hk "/var/lib/docker").mp hmem) (by decide)

/-- C2, amended: for `DataVolumes = ["/var/lib/docker:/var/lib/docker"]` and Docker root
"/mnt/data" (and device specs that all have a ':'), `RancherToDockerConfigs` returns, with
`Binds` equal to `["/mnt/data:/var/lib/docker:rw", "/mnt/data:/mnt/data:rw"]` and a
declared-volumes set equal to exactly `{"/var/lib/docker", "/mnt/data"}`. -/
theorem RancherToDockerConfigs_example_volumes (containerSpec : Container)
    (reference : Reference)
    (hv : containerSpec.DataVolumes = ["/var/lib/docker:/var/lib/docker"])
    (hroot : reference.DockerRoot = "/mnt/data")
    (hd : ∀ d ∈ containerSpec.Devices, ':' ∈ d.toList) :
    ∃ config hostConfig,
      RancherToDockerConfigs containerSpec reference = some (config, hostConfig)
        ∧ hostConfig.Binds = ["/mnt/data:/var/lib/docker:rw", "/mnt/data:/mnt/data:rw"]
        ∧ (∀ k, k ∈ config.Volumes.keys ↔ k = "/var/lib/docker" ∨ k = "/mnt/data")
        ∧ config.Volumes.len = 2 := by
  obtain ⟨config, hostConfig, hr, hb, hc⟩ :=
    RancherToDockerConfigs_volumes containerSpec reference hd
  have hone : volumeLoop reference ["/var/lib/docker:/var/lib/docker"]
      = ⟨GoMap.empty, ⟨[("/var/lib/docker", ()), ("/mnt/data", ())]⟩,
          ["/mnt/data:/var/lib/docker:rw", "/mnt/data:/mnt/data:rw"]⟩ := by
    have hs : SplitN "/var/lib/docker:/var/lib/docker" ':' 3
        = ["/var/lib/docker", "/var/lib/docker"] := by decide
    rw [volumeLoop_two_parts reference _ _ _ hs, hroot]
    decide
  rw [hv, hone] at hb hc
  refine ⟨config, hostConfig, hr, hb, ?_, ?_⟩
  · intro k
    rw [hc]
    simp [GoMap.keys]
  · rw [hc]
    rfl

theorem RancherToDockerConfigs_example_volumes_witness :
    (({ Container.zero with
          DataVolumes := ["/var/lib/docker:/var/lib/docker"]
          Devices := ["/dev/sda:/dev/xvda:r"] } : Container).DataVolumes
        = ["/var/lib/docker:/var/lib/docker"]
      ∧ (⟨GoMap.empty, "/mnt/data"⟩ : Reference).DockerRoot = "/mnt/data"
      ∧ ∀ d ∈ ({ Container.zero with
          DataVolumes := ["/var/lib/docker:/var/lib/docker"]
          Devices := ["/dev/sda:/dev/xvda:r"] } : Container).Devices, ':' ∈ d.toList)
    ∧ ∃ config hostConfig,
      RancherToDockerConfigs
          { Container.zero with
            DataVolumes := ["/var/lib/docker:/var/lib/docker"]
            Devices := ["/dev/sda:/dev/xvda:r"] }
          ⟨GoMap.empty, "/mnt/data"⟩ = some (config, hostConfig)
        ∧ hostConfig.Binds = ["/mnt/data:/var/lib/docker:rw", "/mnt/data:/mnt/data:rw"]
        ∧ (∀ k, k ∈ config.Volumes.keys ↔ k = "/var/lib/docker" ∨ k = "/mnt/data")
        ∧ config.Volumes.len = 2 :=
  ⟨⟨rfl, rfl, by decide⟩,
    RancherToDockerConfigs_example_volumes
      { Container.zero with
        DataVolumes := ["/var/lib/docker:/var/lib/docker"]
        Devices := ["/dev/sda:/dev/xvda:r"] }
      ⟨GoMap.empty, "/mnt/data"⟩ rfl rfl (by decide)⟩

/-! ## Decimal rendering: lemmas -/

theorem digitChar_value (d : Nat) (h : d < 10) : (Nat.digitChar d).toNat - 48 = d := by
  interval_cases d <;> rfl

theorem digitChar_ne (d : Nat) (h : d < 10) :
    Nat.digitChar d ≠ '/' ∧ Nat.digitChar d ≠ '-' := by
  interval_cases d <;> decide

theorem toDigitsCore_eq (fuel : Nat) : ∀ (n : Nat) (acc : List Char), n < fuel → 0 < n →
    Nat.toDigitsCore 10 fuel n acc = ((Nat.digits 10 n).map Nat.digitChar).reverse ++ acc := by
  induction fuel with
  | zero => intro n acc h; omega
  | succ fuel ih =>
    intro n acc hlt hpos
    rw [Nat.digits_def' (by norm_num) hpos]
    simp only [Nat.toDigitsCore]
    by_cases h0 : n / 10 = 0
    · simp [h0]
    · rw [if_neg h0, ih (n / 10) _ (by omega) (by omega)]
      simp

theorem toDigits_eq (n : Nat) (hpos : 0 < n) :
    Nat.toDigits 10 n = ((Nat.digits 10 n).map Nat.digitChar).reverse := by
  rw [Nat.toDigits, toDigitsCore_eq (n + 1) n [] (by omega) hpos]
  simp

theorem toDigits_zero : Nat.toDigits 10 0 = ['0'] := rfl

theorem decimalValue_toDigits (n : Nat) : decimalValue (Nat.toDigits 10 n) = n := by
  rcases Nat.eq_zero_or_pos n with h | h
  · subst h
    rw [toDigits_zero]
    simp [decimalValue]
  · rw [toDigits_eq n h, decimalValue]
    simp only [List.reverse_reverse, List.map_map]
    have hmap : (Nat.digits 10 n).map ((fun c => c.toNat - 48) ∘ Nat.digitChar)
        = Nat.digits 10 n := by
      conv_rhs => rw [← List.map_id (Nat.digits 10 n)]
      apply List.map_congr_left
      intro d hd
      exact digitChar_value d (Nat.digits_lt_base (by norm_num) hd)
    rw [hmap, Nat.ofDigits_digits]

theorem toDigits_mem (n : Nat) (c : Char) (hc : c ∈ Nat.toDigits 10 n) :
    ∃ d, d < 10 ∧ c = Nat.digitChar d := by
  rcases Nat.eq_zero_or_pos n with h | h
  · subst h
    rw [toDigits_zero] at hc
    exact ⟨0, by norm_num, by simpa using hc⟩
  · rw [toDigits_eq n h] at hc
    simp only [List.mem_reverse, List.mem_map] at hc
    obtain ⟨d, hd, rfl⟩ := hc
    exact ⟨d, Nat.digits_lt_base (by norm_num) hd, rfl⟩

theorem repr_data (n : Nat) : (Nat.repr n).data = Nat.toDigits 10 n := rfl

theorem repr_injective (a b : Nat) (h : Nat.repr a = Nat.repr b) : a = b := by
  have h' := congrArg (fun s => decimalValue s.data) h
  simpa [repr_data, decimalValue_toDigits] using h'

theorem Itoa_data_ofNat (n : Nat) : (Itoa (Int.ofNat n)).data = Nat.toDigits 10 n := rfl

theorem Itoa_data_negSucc (n : Nat) :
    (Itoa (Int.negSucc n)).data = '-' :: Nat.toDigits 10 (n + 1) := rfl

theorem Itoa_injective (a b : Int) (h : Itoa a = Itoa b) : a = b := by
  have hd := congrArg String.data h
  cases a with
  | ofNat m =>
    cases b with
    | ofNat n =>
      rw [Itoa_data_ofNat, Itoa_data_ofNat] at hd
      have := congrArg decimalValue hd
      rw [decimalValue_toDigits, decimalValue_toDigits] at this
      rw [this]
    | negSucc n =>
      rw [Itoa_data_ofNat, Itoa_data_negSucc] at hd
      have hmem : '-' ∈ Nat.toDigits 10 m := by rw [hd]; simp
      obtain ⟨d, hlt, e⟩ := toDigits_mem m '-' hmem
      exact absurd e.symm (digitChar_ne d hlt).2
  | negSucc m =>
    cases b with
    | ofNat n =>
      rw [Itoa_data_ofNat, Itoa_data_negSucc] at hd
      have hmem : '-' ∈ Nat.toDigits 10 n := by rw [← hd]; simp
      obtain ⟨d, hlt, e⟩ := toDigits_mem n '-' hmem
      exact absurd e.symm (digitChar_ne d hlt).2
    | negSucc n =>
      rw [Itoa_data_negSucc, Itoa_data_negSucc] at hd
      have := congrArg decimalValue (List.cons.inj hd).2
      rw [decimalValue_toDigits, decimalValue_toDigits] at this
      have hmn : m = n := by omega
      rw [hmn]

theorem Itoa_no_slash (a : Int) : '/' ∉ (Itoa a).data := by
  intro hmem
  cases a with
  | ofNat m =>
    rw [Itoa_data_ofNat] at hmem
    obtain ⟨d, hlt, e⟩ := toDigits_mem m '/' hmem
    exact absurd e.symm (digitChar_ne d hlt).1
  | negSucc m =>
    rw [Itoa_data_negSucc] at hmem
    rcases List.mem_cons.mp hmem with e | hmem
    · exact absurd e (by decide)
    · obtain ⟨d, hlt, e⟩ := toDigits_mem (m + 1) '/' hmem
      exact absurd e.symm (digitChar_ne d hlt).1

theorem portKey_injective (p p' : Int) (proto proto' : String)
    (h : portKey p proto = portKey p' proto') : p = p' ∧ proto = proto' := by
  have hd := congrArg String.data h
  have e1 : (portKey p proto).data = (Itoa p).data ++ '/' :: proto.data := by
    simp [portKey]
  have e2 : (portKey p' proto').data = (Itoa p').data ++ '/' :: proto'.data := by
    simp [portKey]
  rw [e1, e2] at hd
  have c1 := cut_append (Itoa_no_slash p) proto.data
  have c2 := cut_append (Itoa_no_slash p') proto'.data
  rw [hd, c2] at c1
  injection c1 with c1
  injection c1 with ha hb
  exact ⟨(Itoa_injective _ _ (String.ext ha)).symm, (String.ext hb).symm⟩

/-! ## setupPorts: lemmas -/

theorem portsStep_zero (st : PortsLoop) (e : PublicEndpoint) (h : e.PrivatePort = 0) :
    portsStep st e = st := by
  simp [portsStep, h]

theorem portsStep_exposed_keys (st : PortsLoop) (e : PublicEndpoint) (k : String) :
    k ∈ (portsStep st e).exposedPorts.keys
      ↔ k ∈ st.exposedPorts.keys
        ∨ (e.PrivatePort ≠ 0 ∧ portKey e.PrivatePort e.Protocol = k) := by
  unfold portsStep
  split_ifs with h
  · simp only [GoMap.mem_keys_store]
    constructor
    · rintro (hk | hk)
      · exact Or.inr ⟨h, hk.symm⟩
      · exact Or.inl hk
    · rintro (hk | hk)
      · exact Or.inr hk
      · exact Or.inl hk.2.symm
  · simp [h]

theorem foldl_portsStep_exposed_keys (l : List PublicEndpoint) (st : PortsLoop) (k : String) :
    k ∈ (l.foldl portsStep st).exposedPorts.keys
      ↔ k ∈ st.exposedPorts.keys
        ∨ ∃ e ∈ l, e.PrivatePort ≠ 0 ∧ portKey e.PrivatePort e.Protocol = k := by
  induction l generalizing st with
  | nil => simp
  | cons a tl ih =>
    rw [List.foldl_cons, ih, portsStep_exposed_keys]
    simp only [List.mem_cons, exists_eq_or_imp]
    tauto

theorem portsStep_bindings_get? (st : PortsLoop) (e : PublicEndpoint) (k : String) :
    (portsStep st e).bindings.get? k
      = if e.PrivatePort ≠ 0 ∧ portKey e.PrivatePort e.Protocol = k then
          some ((st.bindings.get? k).getD []
            ++ [{ HostIP := e.BindIpAddress, HostPort := Itoa e.PublicPort }])
        else st.bindings.get? k := by
  unfold portsStep
  by_cases h : e.PrivatePort ≠ 0
  · rw [if_pos h]
    by_cases hk : portKey e.PrivatePort e.Protocol = k
    · rw [if_pos ⟨h, hk⟩]
      subst hk
      cases hg : st.bindings.get? (portKey e.PrivatePort e.Protocol) <;>
        simp [hg, GoMap.get?_store]
    · rw [if_neg (fun c => hk c.2)]
      cases hg : st.bindings.get? (portKey e.PrivatePort e.Protocol) <;>
        simp [hg, GoMap.get?_store, hk]
  · rw [if_neg h, if_neg (fun c => h c.1)]

theorem foldl_portsStep_bindings_get? (l : List PublicEndpoint) (st : PortsLoop) (k : String) :
    (l.foldl portsStep st).bindings.get? k
      = if bindingsOf k l = [] then st.bindings.get? k
        else some ((st.bindings.get? k).getD [] ++ bindingsOf k l) := by
  induction l generalizing st with
  | nil => simp [bindingsOf]
  | cons a tl ih =>
    rw [List.foldl_cons, ih, portsStep_bindings_get?]
    by_cases h : a.PrivatePort ≠ 0 ∧ portKey a.PrivatePort a.Protocol = k
    · have e : bindingsOf k (a :: tl)
          = { HostIP := a.BindIpAddress, HostPort := Itoa a.PublicPort } :: bindingsOf k tl := by
        simp [bindingsOf, List.filter_cons, h]
      rw [if_pos h, e]
      by_cases ht : bindingsOf k tl = []
      · simp [ht]
      · simp [ht]
    · have e : bindingsOf k (a :: tl) = bindingsOf k tl := by
        simp only [bindingsOf, List.filter_cons]
        rw [if_neg (by simpa using h)]
      rw [if_neg h, e]

theorem portsLoop_bindings_get? (l : List PublicEndpoint) (k : String) :
    (portsLoop l).bindings.get? k = if bindingsOf k l = [] then none else some (bindingsOf k l) := by
  rw [portsLoop, foldl_portsStep_bindings_get?]
  simp [GoMap.get?_empty]

theorem bindingsOf_ne_nil_iff (k : String) (l : List PublicEndpoint) :
    bindingsOf k l ≠ [] ↔ ∃ e ∈ l, e.PrivatePort ≠ 0 ∧ portKey e.PrivatePort e.Protocol = k := by
  simp [bindingsOf, List.filter_eq_nil_iff]

theorem portsLoop_bindings_len_pos_iff (l : List PublicEndpoint) :
    0 < (portsLoop l).bindings.len ↔ ∃ e ∈ l, e.PrivatePort ≠ 0 := by
  rw [Nat.pos_iff_ne_zero, Ne, GoMap.len_eq_zero_iff]
  simp only [portsLoop_bindings_get?, not_forall]
  constructor
  · rintro ⟨k, hk⟩
    have hne : bindingsOf k l ≠ [] := by
      intro c
      simp [c] at hk
    obtain ⟨e, he, h0, -⟩ := (bindingsOf_ne_nil_iff k l).mp hne
    exact ⟨e, he, h0⟩
  · rintro ⟨e, he, h0⟩
    refine ⟨portKey e.PrivatePort e.Protocol, ?_⟩
    have hne : bindingsOf (portKey e.PrivatePort e.Protocol) l ≠ [] :=
      (bindingsOf_ne_nil_iff _ l).mpr ⟨e, he, h0, rfl⟩
    simp [hne]

theorem setupPorts_ExposedPorts (config : Config) (hostConfig : HostConfig)
    (containerSpec : Container) :
    (setupPorts config hostConfig containerSpec).1.ExposedPorts
      = (portsLoop containerSpec.PublicEndpoints).exposedPorts := by
  unfold setupPorts
  dsimp only
  split_ifs <;> rfl

theorem setupPorts_PortBindings (config : Config) (hostConfig : HostConfig)
    (containerSpec : Container) :
    (setupPorts config hostConfig containerSpec).2.PortBindings
      = if 0 < (portsLoop containerSpec.PublicEndpoints).bindings.len then
          some (portsLoop containerSpec.PublicEndpoints).bindings
        else hostConfig.PortBindings := by
  unfold setupPorts
  dsimp only
  split_ifs <;> rfl

theorem portsLoop_remove_zero (before after : List PublicEndpoint) (e : PublicEndpoint)
    (h : e.PrivatePort = 0) :
    portsLoop (before ++ [e] ++ after) = portsLoop (before ++ after) := by
  simp [portsLoop, List.foldl_append, portsStep_zero _ e h]

/-! ## setupPorts -/

/-- C6: the key `p/proto` is in the exposed-port set built by `setupPorts` if and only if
some endpoint has private port `p`, with `p` non-zero, and protocol `proto`; every key of
the set is the key of such an endpoint; and an endpoint with private port 0 adds nothing:
with it or without it in the list, `setupPorts` gives the same exposed-port set and the same
port bindings. -/
theorem setupPorts_exposed_iff (config : Config) (hostConfig : HostConfig)
    (containerSpec : Container) :
    (∀ (p : Int) (proto : String),
        portKey p proto ∈ (setupPorts config hostConfig containerSpec).1.ExposedPorts.keys
          ↔ ∃ e ∈ containerSpec.PublicEndpoints,
              e.PrivatePort = p ∧ p ≠ 0 ∧ e.Protocol = proto)
      ∧ (∀ k, k ∈ (setupPorts config hostConfig containerSpec).1.ExposedPorts.keys →
          ∃ e ∈ containerSpec.PublicEndpoints,
            e.PrivatePort ≠ 0 ∧ k = portKey e.PrivatePort e.Protocol)
      ∧ (∀ (before after : List PublicEndpoint) (e : PublicEndpoint),
          containerSpec.PublicEndpoints = before ++ [e] ++ after → e.PrivatePort = 0 →
          setupPorts config hostConfig containerSpec
            = setupPorts config hostConfig
                { containerSpec with PublicEndpoints := before ++ after }) := by
  have hkeys : ∀ k, k ∈ (setupPorts config hostConfig containerSpec).1.ExposedPorts.keys
      ↔ ∃ e ∈ containerSpec.PublicEndpoints,
          e.PrivatePort ≠ 0 ∧ portKey e.PrivatePort e.Protocol = k := by
    intro k
    rw [setupPorts_ExposedPorts, portsLoop, foldl_portsStep_exposed_keys]
    simp [GoMap.not_mem_keys_empty]
  refine ⟨?_, ?_, ?_⟩
  · intro p proto
    rw [hkeys]
    constructor
    · rintro ⟨e, he, h0, hk⟩
      obtain ⟨hp, hproto⟩ := portKey_injective _ _ _ _ hk
      exact ⟨e, he, hp, hp ▸ h0, hproto⟩
    · rintro ⟨e, he, hp, h0, hproto⟩
      exact ⟨e, he, hp ▸ h0, by rw [hp, hproto]⟩
  · intro k hk
    obtain ⟨e, he, h0, hk'⟩ := (hkeys k).mp hk
    exact ⟨e, he, h0, hk'.symm⟩
  · intro before after e hl h0
    unfold setupPorts
    simp only [hl, portsLoop_remove_zero before after e h0]

theorem setupPorts_exposed_iff_witness :
    ("80/tcp" ∈ (setupPorts Config.fresh HostConfig.fresh
        { Container.zero with
          PublicEndpoints := [⟨0, "udp", 53, ""⟩, ⟨80, "tcp", 8080, "0.0.0.0"⟩] }
        ).1.ExposedPorts.keys
      ↔ ∃ e ∈ ({ Container.zero with
          PublicEndpoints := [⟨0, "udp", 53, ""⟩, ⟨80, "tcp", 8080, "0.0.0.0"⟩] } : Container
        ).PublicEndpoints, e.PrivatePort = 80 ∧ (80 : Int) ≠ 0 ∧ e.Protocol = "tcp")
    ∧ "0/udp" ∉ (setupPorts Config.fresh HostConfig.fresh
        { Container.zero with
          PublicEndpoints := [⟨0, "udp", 53, ""⟩, ⟨80, "tcp", 8080, "0.0.0.0"⟩] }
        ).1.ExposedPorts.keys :=
  ⟨(setupPorts_exposed_iff Config.fresh HostConfig.fresh
      { Container.zero with
        PublicEndpoints := [⟨0, "udp", 53, ""⟩, ⟨80, "tcp", 8080, "0.0.0.0"⟩] }).1 80 "tcp",
    by decide⟩

/-- C7: in the binding map built by `setupPorts`, the list stored under a key `k` is, in
input order, the list of `(BindIpAddress, decimal string of PublicPort)` over exactly those
of the endpoints that have a non-zero private port and a key `PrivatePort/Protocol` equal
to `k`, and `k` is absent from the map when there is no such endpoint; the lookup through
`hostConfig.PortBindings` gives the same; and the single endpoint
`(80, tcp, 8080, 0.0.0.0)` yields the map with the one entry
`80/tcp ↦ [(0.0.0.0, "8080")]`. -/
theorem setupPorts_bindings (config : Config) (hostConfig : HostConfig)
    (containerSpec : Container) (k : String) :
    ((portsLoop containerSpec.PublicEndpoints).bindings.get? k
        = if (containerSpec.PublicEndpoints.filter (fun e =>
              decide (e.PrivatePort ≠ 0 ∧ portKey e.PrivatePort e.Protocol = k))).map
              (fun e => ({ HostIP := e.BindIpAddress, HostPort := Itoa e.PublicPort }
                : PortBinding)) = []
          then none
          else some ((containerSpec.PublicEndpoints.filter (fun e =>
              decide (e.PrivatePort ≠ 0 ∧ portKey e.PrivatePort e.Protocol = k))).map
              (fun e => { HostIP := e.BindIpAddress, HostPort := Itoa e.PublicPort })))
      ∧ (hostConfig.PortBindings = none →
          (setupPorts config hostConfig containerSpec).2.PortBindings.bind
              (fun bindings => bindings.get? k)
            = (portsLoop containerSpec.PublicEndpoints).bindings.get? k)
      ∧ (setupPorts Config.fresh HostConfig.fresh
            { Container.zero with PublicEndpoints := [⟨80, "tcp", 8080, "0.0.0.0"⟩] }
          ).2.PortBindings = some ⟨[("80/tcp", [⟨"0.0.0.0", "8080"⟩])]⟩ := by
  refine ⟨portsLoop_bindings_get? containerSpec.PublicEndpoints k, ?_, by decide⟩
  intro hnone
  rw [setupPorts_PortBindings]
  split_ifs with hlen
  · rfl
  · have hz : (portsLoop containerSpec.PublicEndpoints).bindings.len = 0 := by omega
    rw [hnone, (GoMap.len_eq_zero_iff _).mp hz k]
    rfl

theorem setupPorts_bindings_witness :
    (setupPorts Config.fresh HostConfig.fresh
        { Container.zero with
          PublicEndpoints := [⟨80, "tcp", 8080, "0.0.0.0"⟩, ⟨0, "tcp", 1, "x"⟩,
            ⟨53, "udp", 53, ""⟩, ⟨80, "tcp", 8081, "127.0.0.1"⟩] }
      ).2.PortBindings.bind (fun bindings => bindings.get? "80/tcp")
      = some [⟨"0.0.0.0", "8080"⟩, ⟨"127.0.0.1", "8081"⟩] := by
  have h := setupPorts_bindings Config.fresh HostConfig.fresh
    { Container.zero with
      PublicEndpoints := [⟨80, "tcp", 8080, "0.0.0.0"⟩, ⟨0, "tcp", 1, "x"⟩,
        ⟨53, "udp", 53, ""⟩, ⟨80, "tcp", 8081, "127.0.0.1"⟩] } "80/tcp"
  rw [h.2.1 rfl, h.1]
  decide

/-- C8: `setupPorts` leaves `hostConfig.PortBindings` as it was when no endpoint has a
non-zero private port, and otherwise sets it to the binding map, which is then non-empty;
so from a host configuration where it is unset, it is unset afterwards if and only if
no endpoint has a non-zero private port. -/
theorem setupPorts_PortBindings_unset_iff (config : Config) (hostConfig : HostConfig)
    (containerSpec : Container) :
    ((∀ e ∈ containerSpec.PublicEndpoints, e.PrivatePort = 0) →
        (setupPorts config hostConfig containerSpec).2.PortBindings = hostConfig.PortBindings)
      ∧ ((∃ e ∈ containerSpec.PublicEndpoints, e.PrivatePort ≠ 0) →
          (setupPorts config hostConfig containerSpec).2.PortBindings
              = some (portsLoop containerSpec.PublicEndpoints).bindings
            ∧ 0 < (portsLoop containerSpec.PublicEndpoints).bindings.len)
      ∧ (hostConfig.PortBindings = none →
          ((setupPorts config hostConfig containerSpec).2.PortBindings = none
            ↔ ∀ e ∈ containerSpec.PublicEndpoints, e.PrivatePort = 0)) := by
  have hiff := portsLoop_bindings_len_pos_iff containerSpec.PublicEndpoints
  refine ⟨?_, ?_, ?_⟩
  · intro hall
    rw [setupPorts_PortBindings, if_neg]
    rw [hiff]
    rintro ⟨e, he, h0⟩
    exact h0 (hall e he)
  · intro hex
    rw [setupPorts_PortBindings, if_pos (hiff.mpr hex)]
    exact ⟨rfl, hiff.mpr hex⟩
  · intro hnone
    rw [setupPorts_PortBindings]
    split_ifs with hlen
    · simp only [reduceCtorEq, false_iff, not_forall]
      obtain ⟨e, he, h0⟩ := hiff.mp hlen
      exact ⟨e, he, h0⟩
    · simp only [hnone, true_iff]
      intro e he
      by_contra h0
      exact hlen (hiff.mpr ⟨e, he, h0⟩)

theorem setupPorts_PortBindings_unset_iff_witness :
    (setupPorts Config.fresh HostConfig.fresh
        { Container.zero with PublicEndpoints := [⟨0, "tcp", 8080, "0.0.0.0"⟩] }
      ).2.PortBindings = none
    ∧ (setupPorts Config.fresh HostConfig.fresh
        { Container.zero with
          PublicEndpoints := [⟨0, "tcp", 8080, "0.0.0.0"⟩, ⟨443, "tcp", 8443, ""⟩] }
      ).2.PortBindings ≠ none := by
  constructor
  · exact (setupPorts_PortBindings_unset_iff Config.fresh HostConfig.fresh
      { Container.zero with PublicEndpoints := [⟨0, "tcp", 8080, "0.0.0.0"⟩] }).1
      (by decide)
  · rw [((setupPorts_PortBindings_unset_iff Config.fresh HostConfig.fresh
      { Container.zero with
        PublicEndpoints := [⟨0, "tcp", 8080, "0.0.0.0"⟩, ⟨443, "tcp", 8443, ""⟩] }).2.1
      (by decide)).1]
    simp

/-! ## setupVolume: volumes-from -/

theorem foldl_volumeFroms (reference : Reference) (names : List String) (acc : List String) :
    names.foldl
        (fun volumeFroms volumeFrom =>
          let c := (reference.VolumeFromContainers.get? volumeFrom).getD Container.zero
          if c.ExternalId ≠ "" then volumeFroms ++ [c.ExternalId] else volumeFroms)
        acc
      = acc ++ names.filterMap (resolvedId reference) := by
  induction names generalizing acc with
  | nil => simp
  | cons a tl ih =>
    rw [List.foldl_cons, ih]
    cases hg : reference.VolumeFromContainers.get? a with
    | none => simp [resolvedId, hg, Container.zero]
    | some c =>
      by_cases hc : c.ExternalId = ""
      · simp [resolvedId, hg, hc]
      · simp [resolvedId, hg, hc]

theorem volumeFromsLoop_eq (reference : Reference) (names : List String) :
    volumeFromsLoop reference names = names.filterMap (resolvedId reference) := by
  rw [volumeFromsLoop, foldl_volumeFroms]
  simp

/-- C9: the volumes-from list computed by `setupVolume` is, in input order, the list of the
external ids of exactly the names whose entry in `Reference.VolumeFromContainers` exists and
has a non-empty `ExternalId`; `hostConfig.VolumesFrom` is set to that list when it is not
empty and is left as it was when the list is empty or `DataVolumesFrom` is nil. -/
theorem setupVolume_VolumesFrom (config : Config) (hostConfig : HostConfig)
    (containerSpec : Container) (reference : Reference) :
    (∀ names : List String,
        volumeFromsLoop reference names
          = names.filterMap (fun name =>
              match reference.VolumeFromContainers.get? name with
              | none => none
              | some c => if c.ExternalId = "" then none else some c.ExternalId))
      ∧ (setupVolume config hostConfig containerSpec reference).2.VolumesFrom
          = match containerSpec.DataVolumesFrom with
            | none => hostConfig.VolumesFrom
            | some names =>
              if volumeFromsLoop reference names = [] then hostConfig.VolumesFrom
              else some (volumeFromsLoop reference names) := by
  constructor
  · intro names
    exact volumeFromsLoop_eq reference names
  · unfold setupVolume
    cases containerSpec.DataVolumesFrom with
    | none => rfl
    | some names =>
      dsimp only
      by_cases hnil : volumeFromsLoop reference names = []
      · rw [if_neg (by simp [hnil]), if_pos hnil]
      · rw [if_pos (List.length_pos.mpr hnil), if_neg hnil]

theorem setupVolume_VolumesFrom_witness :
    (setupVolume Config.fresh HostConfig.fresh
        { Container.zero with DataVolumesFrom := some ["db", "gone", "blank", "web"] }
        ⟨⟨[("db", { Container.zero with ExternalId := "id-db" }),
            ("blank", Container.zero),
            ("web", { Container.zero with ExternalId := "id-web" })]⟩, "/var/lib/docker"⟩
      ).2.VolumesFrom = some ["id-db", "id-web"]
    ∧ (setupVolume Config.fresh HostConfig.fresh
        { Container.zero with DataVolumesFrom := some ["gone", "blank"] }
        ⟨⟨[("blank", Container.zero)]⟩, "/var/lib/docker"⟩).2.VolumesFrom = none := by
  constructor
  · rw [(setupVolume_VolumesFrom Config.fresh HostConfig.fresh
      { Container.zero with DataVolumesFrom := some ["db", "gone", "blank", "web"] }
      ⟨⟨[("db", { Container.zero with ExternalId := "id-db" }),
          ("blank", Container.zero),
          ("web", { Container.zero with ExternalId := "id-web" })]⟩, "/var/lib/docker"⟩).2]
    decide
  · rw [(setupVolume_VolumesFrom Config.fresh HostConfig.fresh
      { Container.zero with DataVolumesFrom := some ["gone", "blank"] }
      ⟨⟨[("blank", Container.zero)]⟩, "/var/lib/docker"⟩).2]
    decide

/-! ## setupDeviceOptions -/

theorem deviceOptionsStep_lists (st : BlkioLoop) (entry : String × OptionBag) :
    (deviceOptionsStep st entry).blkioWeightDevice
        = st.blkioWeightDevice ++ (weightEntry entry).toList
      ∧ (deviceOptionsStep st entry).blkioDeviceReadIOps
        = st.blkioDeviceReadIOps ++ (throttleEntry (fun o => o.ReadIops) entry).toList
      ∧ (deviceOptionsStep st entry).blkioDeviceWriteIOps
        = st.blkioDeviceWriteIOps ++ (throttleEntry (fun o => o.WriteIops) entry).toList
      ∧ (deviceOptionsStep st entry).blkioDeviceReadBps
        = st.blkioDeviceReadBps ++ (throttleEntry (fun o => o.ReadBps) entry).toList
      ∧ (deviceOptionsStep st entry).blkioDeviceWriteBps
        = st.blkioDeviceWriteBps ++ (throttleEntry (fun o => o.WriteBps) entry).toList := by
  unfold deviceOptionsStep weightEntry throttleEntry
  cases Unmarshalling entry.2 with
  | error e => simp
  | ok option =>
    by_cases h1 : option.Weight = 0 <;> by_cases h2 : option.ReadIops = 0 <;>
      by_cases h3 : option.WriteIops = 0 <;> by_cases h4 : option.ReadBps = 0 <;>
      by_cases h5 : option.WriteBps = 0 <;> simp [h1, h2, h3, h4, h5]

theorem foldl_deviceOptionsStep_lists (l : List (String × OptionBag)) (st : BlkioLoop) :
    (l.foldl deviceOptionsStep st).blkioWeightDevice
        = st.blkioWeightDevice ++ l.filterMap weightEntry
      ∧ (l.foldl deviceOptionsStep st).blkioDeviceReadIOps
        = st.blkioDeviceReadIOps ++ l.filterMap (throttleEntry (fun o => o.ReadIops))
      ∧ (l.foldl deviceOptionsStep st).blkioDeviceWriteIOps
        = st.blkioDeviceWriteIOps ++ l.filterMap (throttleEntry (fun o => o.WriteIops))
      ∧ (l.foldl deviceOptionsStep st).blkioDeviceReadBps
        = st.blkioDeviceReadBps ++ l.filterMap (throttleEntry (fun o => o.ReadBps))
      ∧ (l.foldl deviceOptionsStep st).blkioDeviceWriteBps
        = st.blkioDeviceWriteBps ++ l.filterMap (throttleEntry (fun o => o.WriteBps)) := by
  induction l generalizing st with
  | nil => simp
  | cons a tl ih =>
    obtain ⟨h1, h2, h3, h4, h5⟩ := ih (deviceOptionsStep st a)
    obtain ⟨s1, s2, s3, s4, s5⟩ := deviceOptionsStep_lists st a
    rw [List.foldl_cons, h1, h2, h3, h4, h5, s1, s2, s3, s4, s5]
    refine ⟨?_, ?_, ?_, ?_, ?_⟩
    · cases hx : weightEntry a <;> simp [List.filterMap_cons, hx]
    · cases hx : throttleEntry (fun o => o.ReadIops) a <;> simp [List.filterMap_cons, hx]
    · cases hx : throttleEntry (fun o => o.WriteIops) a <;> simp [List.filterMap_cons, hx]
    · cases hx : throttleEntry (fun o => o.ReadBps) a <;> simp [List.filterMap_cons, hx]
    · cases hx : throttleEntry (fun o => o.WriteBps) a <;> simp [List.filterMap_cons, hx]

theorem deviceOptionsLoop_lists (devOptions : GoMap String OptionBag) :
    (deviceOptionsLoop devOptions).blkioWeightDevice
        = devOptions.entries.filterMap weightEntry
      ∧ (deviceOptionsLoop devOptions).blkioDeviceReadIOps
        = devOptions.entries.filterMap (throttleEntry (fun o => o.ReadIops))
      ∧ (deviceOptionsLoop devOptions).blkioDeviceWriteIOps
        = devOptions.entries.filterMap (throttleEntry (fun o => o.WriteIops))
      ∧ (deviceOptionsLoop devOptions).blkioDeviceReadBps
        = devOptions.entries.filterMap (throttleEntry (fun o => o.ReadBps))
      ∧ (deviceOptionsLoop devOptions).blkioDeviceWriteBps
        = devOptions.entries.filterMap (throttleEntry (fun o => o.WriteBps)) := by
  simpa [deviceOptionsLoop] using
    foldl_deviceOptionsStep_lists devOptions.entries ⟨[], [], [], [], []⟩

theorem mem_filterMap_weightEntry (l : List (String × OptionBag)) (w : WeightDevice)
    (h : w ∈ l.filterMap weightEntry) :
    ∃ value option, (w.Path, value) ∈ l ∧ Unmarshalling value = Except.ok option
      ∧ option.Weight ≠ 0 ∧ w.Weight = option.Weight := by
  obtain ⟨⟨dev, value⟩, hmem, he⟩ := List.mem_filterMap.mp h
  unfold weightEntry at he
  cases hu : Unmarshalling value with
  | error e => simp [hu] at he
  | ok option =>
    simp only [hu] at he
    split_ifs at he with h0
    · injection he with he
      subst he
      exact ⟨value, option, hmem, hu, h0, rfl⟩

theorem mem_filterMap_throttleEntry (field : deviceOptions → Nat)
    (l : List (String × OptionBag)) (t : ThrottleDevice)
    (h : t ∈ l.filterMap (throttleEntry field)) :
    ∃ value option, (t.Path, value) ∈ l ∧ Unmarshalling value = Except.ok option
      ∧ field option ≠ 0 ∧ t.Rate = field option := by
  obtain ⟨⟨dev, value⟩, hmem, he⟩ := List.mem_filterMap.mp h
  unfold throttleEntry at he
  cases hu : Unmarshalling value with
  | error e => simp [hu] at he
  | ok option =>
    simp only [hu] at he
    split_ifs at he with h0
    · injection he with he
      subst he
      exact ⟨value, option, hmem, hu, h0, rfl⟩

theorem setupDeviceOptions_fields (hostConfig : HostConfig) (spec : Container) :
    (setupDeviceOptions hostConfig spec).1.BlkioWeightDevice
        = (if (deviceOptionsLoop spec.BlkioDeviceOptions).blkioWeightDevice = [] then
            hostConfig.BlkioWeightDevice
          else some (deviceOptionsLoop spec.BlkioDeviceOptions).blkioWeightDevice)
      ∧ (setupDeviceOptions hostConfig spec).1.BlkioDeviceReadIOps
        = (if (deviceOptionsLoop spec.BlkioDeviceOptions).blkioDeviceReadIOps = [] then
            hostConfig.BlkioDeviceReadIOps
          else some (deviceOptionsLoop spec.BlkioDeviceOptions).blkioDeviceReadIOps)
      ∧ (setupDeviceOptions hostConfig spec).1.BlkioDeviceWriteIOps
        = (if (deviceOptionsLoop spec.BlkioDeviceOptions).blkioDeviceWriteIOps = [] then
            hostConfig.BlkioDeviceWriteIOps
          else some (deviceOptionsLoop spec.BlkioDeviceOptions).blkioDeviceWriteIOps)
      ∧ (setupDeviceOptions hostConfig spec).1.BlkioDeviceReadBps
        = (if (deviceOptionsLoop spec.BlkioDeviceOptions).blkioDeviceReadBps = [] then
            hostConfig.BlkioDeviceReadBps
          else some (deviceOptionsLoop spec.BlkioDeviceOptions).blkioDeviceReadBps)
      ∧ (setupDeviceOptions hostConfig spec).1.BlkioDeviceWriteBps
        = (if (deviceOptionsLoop spec.BlkioDeviceOptions).blkioDeviceWriteBps = [] then
            hostConfig.BlkioDeviceWriteBps
          else some (deviceOptionsLoop spec.BlkioDeviceOptions).blkioDeviceWriteBps) := by
  unfold setupDeviceOptions
  by_cases h1 : (deviceOptionsLoop spec.BlkioDeviceOptions).blkioWeightDevice = [] <;>
    by_cases h2 : (deviceOptionsLoop spec.BlkioDeviceOptions).blkioDeviceReadIOps = [] <;>
    by_cases h3 : (deviceOptionsLoop spec.BlkioDeviceOptions).blkioDeviceWriteIOps = [] <;>
    by_cases h4 : (deviceOptionsLoop spec.BlkioDeviceOptions).blkioDeviceReadBps = [] <;>
    by_cases h5 : (deviceOptionsLoop spec.BlkioDeviceOptions).blkioDeviceWriteBps = [] <;>
    simp [h1, h2, h3, h4, h5, List.length_pos]

theorem weightEntry_path_ne (l : List (String × OptionBag)) (dev : String)
    (hzero : ∀ value option, (dev, value) ∈ l → Unmarshalling value = Except.ok option →
      option = deviceOptions.zero) :
    ∀ w ∈ l.filterMap weightEntry, w.Path ≠ dev := by
  intro w hw hpath
  obtain ⟨value, option, hmem, hu, h0, -⟩ := mem_filterMap_weightEntry l w hw
  rw [hpath] at hmem
  rw [hzero value option hmem hu] at h0
  exact h0 rfl

theorem throttleEntry_path_ne (field : deviceOptions → Nat)
    (hfield : field deviceOptions.zero = 0) (l : List (String × OptionBag)) (dev : String)
    (hzero : ∀ value option, (dev, value) ∈ l → Unmarshalling value = Except.ok option →
      option = deviceOptions.zero) :
    ∀ t ∈ l.filterMap (throttleEntry field), t.Path ≠ dev := by
  intro t ht hpath
  obtain ⟨value, option, hmem, hu, h0, -⟩ := mem_filterMap_throttleEntry field l t ht
  rw [hpath] at hmem
  rw [hzero value option hmem hu] at h0
  exact h0 hfield

theorem filterMap_weightEntry_eq_nil (l : List (String × OptionBag))
    (hzero : ∀ dev value option, (dev, value) ∈ l → Unmarshalling value = Except.ok option →
      option.Weight = 0) :
    l.filterMap weightEntry = [] := by
  apply List.eq_nil_iff_forall_not_mem.mpr
  intro w hw
  obtain ⟨value, option, hmem, hu, h0, -⟩ := mem_filterMap_weightEntry l w hw
  exact h0 (hzero _ value option hmem hu)

theorem filterMap_throttleEntry_eq_nil (field : deviceOptions → Nat)
    (l : List (String × OptionBag))
    (hzero : ∀ dev value option, (dev, value) ∈ l → Unmarshalling value = Except.ok option →
      field option = 0) :
    l.filterMap (throttleEntry field) = [] := by
  apply List.eq_nil_iff_forall_not_mem.mpr
  intro t ht
  obtain ⟨value, option, hmem, hu, h0, -⟩ := mem_filterMap_throttleEntry field l t ht
  exact h0 (hzero _ value option hmem hu)

theorem unchanged_of_holds_path {α : Type} (path : α → String) (built : List α)
    [Decidable (built = [])] (before after : Option (List α)) (dev : String)
    (hafter : after = if built = [] then before else some built)
    (hbuilt : ∀ x ∈ built, path x ≠ dev) :
    ∀ l, after = some l → (∃ x ∈ l, path x = dev) → before = some l := by
  intro l hl hex
  by_cases hb : built = []
  · rw [hafter, if_pos hb] at hl
    exact hl
  · rw [hafter, if_neg hb] at hl
    injection hl with hl
    obtain ⟨x, hx, hp⟩ := hex
    rw [← hl] at hx
    exact absurd hp (hbuilt x hx)

/-- C10: a device all of whose decoded option records have the five fields zero (which
is what an absent field decodes to) gets no entry in any of the five lists that
`setupDeviceOptions` builds, and an output list of the host configuration that holds an
entry with its path is the list that was there before the call; and each of the five
output lists is left as it was (unset, for a fresh host configuration) when no device of
the options map decodes to a non-zero value of the corresponding field. -/
theorem setupDeviceOptions_zero_options (hostConfig : HostConfig) (spec : Container) :
    (∀ dev : String,
        (∀ value option, (dev, value) ∈ spec.BlkioDeviceOptions.entries →
          Unmarshalling value = Except.ok option → option = deviceOptions.zero) →
        ((∀ w ∈ (deviceOptionsLoop spec.BlkioDeviceOptions).blkioWeightDevice, w.Path ≠ dev)
          ∧ (∀ t ∈ (deviceOptionsLoop spec.BlkioDeviceOptions).blkioDeviceReadIOps,
              t.Path ≠ dev)
          ∧ (∀ t ∈ (deviceOptionsLoop spec.BlkioDeviceOptions).blkioDeviceWriteIOps,
              t.Path ≠ dev)
          ∧ (∀ t ∈ (deviceOptionsLoop spec.BlkioDeviceOptions).blkioDeviceReadBps,
              t.Path ≠ dev)
          ∧ (∀ t ∈ (deviceOptionsLoop spec.BlkioDeviceOptions).blkioDeviceWriteBps,
              t.Path ≠ dev))
        ∧ ((∀ l, (setupDeviceOptions hostConfig spec).1.BlkioWeightDevice = some l →
              (∃ w ∈ l, w.Path = dev) → hostConfig.BlkioWeightDevice = some l)
          ∧ (∀ l, (setupDeviceOptions hostConfig spec).1.BlkioDeviceReadIOps = some l →
              (∃ t ∈ l, t.Path = dev) → hostConfig.BlkioDeviceReadIOps = some l)
          ∧ (∀ l, (setupDeviceOptions hostConfig spec).1.BlkioDeviceWriteIOps = some l →
              (∃ t ∈ l, t.Path = dev) → hostConfig.BlkioDeviceWriteIOps = some l)
          ∧ (∀ l, (setupDeviceOptions hostConfig spec).1.BlkioDeviceReadBps = some l →
              (∃ t ∈ l, t.Path = dev) → hostConfig.BlkioDeviceReadBps = some l)
          ∧ (∀ l, (setupDeviceOptions hostConfig spec).1.BlkioDeviceWriteBps = some l →
              (∃ t ∈ l, t.Path = dev) → hostConfig.BlkioDeviceWriteBps = some l)))
      ∧ ((∀ dev value option, (dev, value) ∈ spec.BlkioDeviceOptions.entries →
            Unmarshalling value = Except.ok option → option.Weight = 0) →
          (setupDeviceOptions hostConfig spec).1.BlkioWeightDevice
            = hostConfig.BlkioWeightDevice)
      ∧ ((∀ dev value option, (dev, value) ∈ spec.BlkioDeviceOptions.entries →
            Unmarshalling value = Except.ok option → option.ReadIops = 0) →
          (setupDeviceOptions hostConfig spec).1.BlkioDeviceReadIOps
            = hostConfig.BlkioDeviceReadIOps)
      ∧ ((∀ dev value option, (dev, value) ∈ spec.BlkioDeviceOptions.entries →
            Unmarshalling value = Except.ok option → option.WriteIops = 0) →
          (setupDeviceOptions hostConfig spec).1.BlkioDeviceWriteIOps
            = hostConfig.BlkioDeviceWriteIOps)
      ∧ ((∀ dev value option, (dev, value) ∈ spec.BlkioDeviceOptions.entries →
            Unmarshalling value = Except.ok option → option.ReadBps = 0) →
          (setupDeviceOptions hostConfig spec).1.BlkioDeviceReadBps
            = hostConfig.BlkioDeviceReadBps)
      ∧ ((∀ dev value option, (dev, value) ∈ spec.BlkioDeviceOptions.entries →
            Unmarshalling value = Except.ok option → option.WriteBps = 0) →
          (setupDeviceOptions hostConfig spec).1.BlkioDeviceWriteBps
            = hostConfig.BlkioDeviceWriteBps) := by
  obtain ⟨l1, l2, l3, l4, l5⟩ := deviceOptionsLoop_lists spec.BlkioDeviceOptions
  obtain ⟨f1, f2, f3, f4, f5⟩ := setupDeviceOptions_fields hostConfig spec
  refine ⟨?_, ?_, ?_, ?_, ?_, ?_⟩
  · intro dev hzero
    have b1 : ∀ w ∈ (deviceOptionsLoop spec.BlkioDeviceOptions).blkioWeightDevice,
        w.Path ≠ dev := by
      rw [l1]
      exact weightEntry_path_ne _ dev hzero
    have b2 : ∀ t ∈ (deviceOptionsLoop spec.BlkioDeviceOptions).blkioDeviceReadIOps,
        t.Path ≠ dev := by
      rw [l2]
      exact throttleEntry_path_ne _ rfl _ dev hzero
    have b3 : ∀ t ∈ (deviceOptionsLoop spec.BlkioDeviceOptions).blkioDeviceWriteIOps,
        t.Path ≠ dev := by
      rw [l3]
      exact throttleEntry_path_ne _ rfl _ dev hzero
    have b4 : ∀ t ∈ (deviceOptionsLoop spec.BlkioDeviceOptions).blkioDeviceReadBps,
        t.Path ≠ dev := by
      rw [l4]
      exact throttleEntry_path_ne _ rfl _ dev hzero
    have b5 : ∀ t ∈ (deviceOptionsLoop spec.BlkioDeviceOptions).blkioDeviceWriteBps,
        t.Path ≠ dev := by
      rw [l5]
      exact throttleEntry_path_ne _ rfl _ dev hzero
    exact ⟨⟨b1, b2, b3, b4, b5⟩,
      unchanged_of_holds_path (fun w => w.Path) _ _ _ dev f1 b1,
      unchanged_of_holds_path (fun t => t.Path) _ _ _ dev f2 b2,
      unchanged_of_holds_path (fun t => t.Path) _ _ _ dev f3 b3,
      unchanged_of_holds_path (fun t => t.Path) _ _ _ dev f4 b4,
      unchanged_of_holds_path (fun t => t.Path) _ _ _ dev f5 b5⟩
  · intro h
    rw [f1, l1, if_pos (filterMap_weightEntry_eq_nil _ h)]
  · intro h
    rw [f2, l2, if_pos (filterMap_throttleEntry_eq_nil _ _ h)]
  · intro h
    rw [f3, l3, if_pos (filterMap_throttleEntry_eq_nil _ _ h)]
  · intro h
    rw [f4, l4, if_pos (filterMap_throttleEntry_eq_nil _ _ h)]
  · intro h
    rw [f5, l5, if_pos (filterMap_throttleEntry_eq_nil _ _ h)]

theorem setupDeviceOptions_zero_options_witness :
    (∀ w ∈ (deviceOptionsLoop
          ({ Container.zero with
            BlkioDeviceOptions := ⟨[
              ("/dev/sda", some (Json.object [("Weight", Json.number (JsonNumber.integer 0)),
                ("readIops", Json.null)])),
              ("/dev/sdb", some (Json.object [("WriteBps",
                Json.number (JsonNumber.integer 1048576))]))]⟩ } : Container
          ).BlkioDeviceOptions).blkioDeviceWriteBps, w.Path ≠ "/dev/sda")
    ∧ (setupDeviceOptions HostConfig.fresh
        { Container.zero with
          BlkioDeviceOptions := ⟨[
            ("/dev/sda", some (Json.object [("Weight", Json.number (JsonNumber.integer 0)),
              ("readIops", Json.null)])),
            ("/dev/sdb", some (Json.object [("WriteBps",
              Json.number (JsonNumber.integer 1048576))]))]⟩ }
        ).1.BlkioDeviceWriteBps = some [⟨"/dev/sdb", 1048576⟩]
    ∧ (setupDeviceOptions HostConfig.fresh
        { Container.zero with
          BlkioDeviceOptions := ⟨[
            ("/dev/sda", some (Json.object [("Weight", Json.number (JsonNumber.integer 0)),
              ("readIops", Json.null)])),
            ("/dev/sdb", some (Json.object [("WriteBps",
              Json.number (JsonNumber.integer 1048576))]))]⟩ }
        ).1.BlkioWeightDevice = HostConfig.fresh.BlkioWeightDevice := by
  have h := setupDeviceOptions_zero_options HostConfig.fresh
    { Container.zero with
      BlkioDeviceOptions := ⟨[
        ("/dev/sda", some (Json.object [("Weight", Json.number (JsonNumber.integer 0)),
          ("readIops", Json.null)])),
        ("/dev/sdb", some (Json.object [("WriteBps",
          Json.number (JsonNumber.integer 1048576))]))]⟩ }
  have ha : Unmarshalling (some (Json.object [("Weight", Json.number (JsonNumber.integer 0)),
      ("readIops", Json.null)])) = Except.ok deviceOptions.zero := rfl
  have hb : Unmarshalling (some (Json.object [("WriteBps",
      Json.number (JsonNumber.integer 1048576))]))
      = Except.ok { deviceOptions.zero with WriteBps := 1048576 } := rfl
  refine ⟨?_, by decide, ?_⟩
  · refine (h.1 "/dev/sda" ?_).1.2.2.2.2
    intro value option hmem hu
    simp only [List.mem_cons, Prod.mk.injEq, List.mem_singleton, List.not_mem_nil,
      or_false] at hmem
    rcases hmem with ⟨-, hv⟩ | ⟨hd, -⟩
    · rw [hv, ha] at hu
      injection hu with hu
      exact hu.symm
    · exact absurd hd (by decide)
  · refine h.2.1 ?_
    intro dev value option hmem hu
    simp only [List.mem_cons, Prod.mk.injEq, List.mem_singleton, List.not_mem_nil,
      or_false] at hmem
    rcases hmem with ⟨-, hv⟩ | ⟨-, hv⟩
    · rw [hv, ha] at hu
      injection hu with hu
      rw [← hu]
      rfl
    · rw [hv, hb] at hu
      injection hu with hu
      rw [← hu]
      rfl

/-! ## setupDeviceOptions: the entries of a device -/

theorem filterMap_filter_absent {α : Type} (f : String × OptionBag → Option α)
    (path : α → String) (hpath : ∀ e x, f e = some x → path x = e.1)
    (l : List (String × OptionBag)) (d : String) (hd : d ∉ l.map Prod.fst) :
    (l.filterMap f).filter (fun x => decide (path x = d)) = [] := by
  apply List.filter_eq_nil_iff.mpr
  intro x hx
  obtain ⟨e, he, hfe⟩ := List.mem_filterMap.mp hx
  have hp := hpath e x hfe
  simp only [decide_eq_true_eq]
  intro hxd
  exact hd (List.mem_map.mpr ⟨e, he, by rw [← hp, hxd]⟩)

theorem filterMap_filter_key {α : Type} (f : String × OptionBag → Option α)
    (path : α → String) (hpath : ∀ e x, f e = some x → path x = e.1)
    (l : List (String × OptionBag)) (hnd : (l.map Prod.fst).Nodup) (d : String)
    (value : OptionBag) (hmem : (d, value) ∈ l) :
    (l.filterMap f).filter (fun x => decide (path x = d)) = (f (d, value)).toList := by
  induction l with
  | nil => simp at hmem
  | cons e tl ih =>
    rw [List.map_cons, List.nodup_cons] at hnd
    obtain ⟨hnotin, hnd'⟩ := hnd
    rcases List.mem_cons.mp hmem with he | hin
    · subst he
      have habs := filterMap_filter_absent f path hpath tl d hnotin
      cases hf : f (d, value) with
      | none => simpa [List.filterMap_cons, hf] using habs
      | some x =>
        have hp : path x = d := hpath (d, value) x hf
        simp [List.filterMap_cons, hf, List.filter_cons, hp, habs]
    · have hne : e.1 ≠ d := by
        intro c
        exact hnotin (List.mem_map.mpr ⟨(d, value), hin, c.symm⟩)
      cases hf : f e with
      | none => simpa [List.filterMap_cons, hf] using ih hnd' hin
      | some x =>
        have hp : path x = e.1 := hpath e x hf
        have hpd : ¬ path x = d := by rw [hp]; exact hne
        simpa [List.filterMap_cons, hf, List.filter_cons, hpd] using ih hnd' hin

theorem weightEntry_path (e : String × OptionBag) (w : WeightDevice)
    (h : weightEntry e = some w) : w.Path = e.1 := by
  unfold weightEntry at h
  split at h
  · simp at h
  · split_ifs at h
    injection h with h
    rw [← h]

theorem throttleEntry_path (field : deviceOptions → Nat) (e : String × OptionBag)
    (t : ThrottleDevice) (h : throttleEntry field e = some t) : t.Path = e.1 := by
  unfold throttleEntry at h
  split at h
  · simp at h
  · split_ifs at h
    injection h with h
    rw [← h]

theorem weightEntry_of_ok (d : String) (value : OptionBag) (option : deviceOptions)
    (hu : Unmarshalling value = Except.ok option) :
    (weightEntry (d, value)).toList
      = if option.Weight ≠ 0 then [{ Path := d, Weight := option.Weight }] else [] := by
  simp only [weightEntry, hu]
  split_ifs <;> rfl

theorem throttleEntry_of_ok (field : deviceOptions → Nat) (d : String) (value : OptionBag)
    (option : deviceOptions) (hu : Unmarshalling value = Except.ok option) :
    (throttleEntry field (d, value)).toList
      = if field option ≠ 0 then [{ Path := d, Rate := field option }] else [] := by
  simp only [throttleEntry, hu]
  split_ifs <;> rfl

theorem deviceOptionsStep_error (st : BlkioLoop) (d : String) (value : OptionBag) (e : String)
    (hu : Unmarshalling value = Except.error e) : deviceOptionsStep st (d, value) = st := by
  simp only [deviceOptionsStep, hu]

/-- C11: in an options map with one entry per device path, for a device `d` whose option
bag decodes to `option`, each of the five lists that `setupDeviceOptions` builds holds, as
its entries with path `d`, exactly one entry carrying the value of its own field when that
value is not zero, and none when it is zero; and a list whose field is not zero for `d` is
the one assigned to the corresponding field of the host configuration. -/
theorem setupDeviceOptions_nonzero_fields (hostConfig : HostConfig) (spec : Container)
    (d : String) (value : OptionBag) (option : deviceOptions)
    (hnd : spec.BlkioDeviceOptions.keys.Nodup)
    (hmem : (d, value) ∈ spec.BlkioDeviceOptions.entries)
    (hu : Unmarshalling value = Except.ok option) :
    ((deviceOptionsLoop spec.BlkioDeviceOptions).blkioWeightDevice.filter
          (fun w => decide (w.Path = d))
        = (if option.Weight ≠ 0 then [{ Path := d, Weight := option.Weight }] else [])
      ∧ (deviceOptionsLoop spec.BlkioDeviceOptions).blkioDeviceReadIOps.filter
          (fun t => decide (t.Path = d))
        = (if option.ReadIops ≠ 0 then [{ Path := d, Rate := option.ReadIops }] else [])
      ∧ (deviceOptionsLoop spec.BlkioDeviceOptions).blkioDeviceWriteIOps.filter
          (fun t => decide (t.Path = d))
        = (if option.WriteIops ≠ 0 then [{ Path := d, Rate := option.WriteIops }] else [])
      ∧ (deviceOptionsLoop spec.BlkioDeviceOptions).blkioDeviceReadBps.filter
          (fun t => decide (t.Path = d))
        = (if option.ReadBps ≠ 0 then [{ Path := d, Rate := option.ReadBps }] else [])
      ∧ (deviceOptionsLoop spec.BlkioDeviceOptions).blkioDeviceWriteBps.filter
          (fun t => decide (t.Path = d))
        = (if option.WriteBps ≠ 0 then [{ Path := d, Rate := option.WriteBps }] else []))
    ∧ ((option.Weight ≠ 0 →
          (setupDeviceOptions hostConfig spec).1.BlkioWeightDevice
            = some (deviceOptionsLoop spec.BlkioDeviceOptions).blkioWeightDevice)
      ∧ (option.ReadIops ≠ 0 →
          (setupDeviceOptions hostConfig spec).1.BlkioDeviceReadIOps
            = some (deviceOptionsLoop spec.BlkioDeviceOptions).blkioDeviceReadIOps)
      ∧ (option.WriteIops ≠ 0 →
          (setupDeviceOptions hostConfig spec).1.BlkioDeviceWriteIOps
            = some (deviceOptionsLoop spec.BlkioDeviceOptions).blkioDeviceWriteIOps)
      ∧ (option.ReadBps ≠ 0 →
          (setupDeviceOptions hostConfig spec).1.BlkioDeviceReadBps
            = some (deviceOptionsLoop spec.BlkioDeviceOptions).blkioDeviceReadBps)
      ∧ (option.WriteBps ≠ 0 →
          (setupDeviceOptions hostConfig spec).1.BlkioDeviceWriteBps
            = some (deviceOptionsLoop spec.BlkioDeviceOptions).blkioDeviceWriteBps)) := by
  obtain ⟨l1, l2, l3, l4, l5⟩ := deviceOptionsLoop_lists spec.BlkioDeviceOptions
  obtain ⟨f1, f2, f3, f4, f5⟩ := setupDeviceOptions_fields hostConfig spec
  have hnd' : (spec.BlkioDeviceOptions.entries.map Prod.fst).Nodup := hnd
  have e1 := filterMap_filter_key weightEntry (fun w => w.Path) weightEntry_path
    _ hnd' d value hmem
  have e2 := filterMap_filter_key (throttleEntry (fun o => o.ReadIops)) (fun t => t.Path)
    (throttleEntry_path _) _ hnd' d value hmem
  have e3 := filterMap_filter_key (throttleEntry (fun o => o.WriteIops)) (fun t => t.Path)
    (throttleEntry_path _) _ hnd' d value hmem
  have e4 := filterMap_filter_key (throttleEntry (fun o => o.ReadBps)) (fun t => t.Path)
    (throttleEntry_path _) _ hnd' d value hmem
  have e5 := filterMap_filter_key (throttleEntry (fun o => o.WriteBps)) (fun t => t.Path)
    (throttleEntry_path _) _ hnd' d value hmem
  rw [weightEntry_of_ok d value option hu] at e1
  rw [throttleEntry_of_ok _ d value option hu] at e2 e3 e4 e5
  rw [← l1] at e1
  rw [← l2] at e2
  rw [← l3] at e3
  rw [← l4] at e4
  rw [← l5] at e5
  have hne : ∀ {α : Type} (built : List α) (p : α → Bool) (x : α),
      built.filter p = [x] → built ≠ [] := by
    intro α built p x h c
    rw [c] at h
    simp at h
  refine ⟨⟨e1, e2, e3, e4, e5⟩, ?_, ?_, ?_, ?_, ?_⟩
  · intro h0
    rw [if_pos h0] at e1
    rw [f1, if_neg (hne _ _ _ e1)]
  · intro h0
    rw [if_pos h0] at e2
    rw [f2, if_neg (hne _ _ _ e2)]
  · intro h0
    rw [if_pos h0] at e3
    rw [f3, if_neg (hne _ _ _ e3)]
  · intro h0
    rw [if_pos h0] at e4
    rw [f4, if_neg (hne _ _ _ e4)]
  · intro h0
    rw [if_pos h0] at e5
    rw [f5, if_neg (hne _ _ _ e5)]

theorem setupDeviceOptions_nonzero_fields_witness :
    ((({ Container.zero with
          BlkioDeviceOptions := ⟨[
            ("/dev/sda", some (Json.object [("weight", Json.number (JsonNumber.integer 500)),
              ("ReadBps", Json.number (JsonNumber.integer 1048576))])),
            ("/dev/sdb", some (Json.object [("Weight",
              Json.number (JsonNumber.integer 300))]))]⟩ } : Container
        ).BlkioDeviceOptions.keys.Nodup)
      ∧ ("/dev/sda", some (Json.object [("weight", Json.number (JsonNumber.integer 500)),
              ("ReadBps", Json.number (JsonNumber.integer 1048576))]))
          ∈ ({ Container.zero with
            BlkioDeviceOptions := ⟨[
              ("/dev/sda", some (Json.object [("weight", Json.number (JsonNumber.integer 500)),
                ("ReadBps", Json.number (JsonNumber.integer 1048576))])),
              ("/dev/sdb", some (Json.object [("Weight",
                Json.number (JsonNumber.integer 300))]))]⟩ } : Container
            ).BlkioDeviceOptions.entries
      ∧ Unmarshalling (some (Json.object [("weight", Json.number (JsonNumber.integer 500)),
              ("ReadBps", Json.number (JsonNumber.integer 1048576))]))
          = Except.ok { deviceOptions.zero with Weight := 500, ReadBps := 1048576 })
    ∧ (deviceOptionsLoop ({ Container.zero with
          BlkioDeviceOptions := ⟨[
            ("/dev/sda", some (Json.object [("weight", Json.number (JsonNumber.integer 500)),
              ("ReadBps", Json.number (JsonNumber.integer 1048576))])),
            ("/dev/sdb", some (Json.object [("Weight",
              Json.number (JsonNumber.integer 300))]))]⟩ } : Container
        ).BlkioDeviceOptions).blkioWeightDevice.filter
          (fun w => decide (w.Path = "/dev/sda"))
        = [{ Path := "/dev/sda", Weight := 500 }]
    ∧ (setupDeviceOptions HostConfig.fresh
        { Container.zero with
          BlkioDeviceOptions := ⟨[
            ("/dev/sda", some (Json.object [("weight", Json.number (JsonNumber.integer 500)),
              ("ReadBps", Json.number (JsonNumber.integer 1048576))])),
            ("/dev/sdb", some (Json.object [("Weight",
              Json.number (JsonNumber.integer 300))]))]⟩ }).1.BlkioWeightDevice
        = some [{ Path := "/dev/sda", Weight := 500 }, { Path := "/dev/sdb", Weight := 300 }] := by
  have h := setupDeviceOptions_nonzero_fields HostConfig.fresh
    { Container.zero with
      BlkioDeviceOptions := ⟨[
        ("/dev/sda", some (Json.object [("weight", Json.number (JsonNumber.integer 500)),
          ("ReadBps", Json.number (JsonNumber.integer 1048576))])),
        ("/dev/sdb", some (Json.object [("Weight",
          Json.number (JsonNumber.integer 300))]))]⟩ }
    "/dev/sda" _ { deviceOptions.zero with Weight := 500, ReadBps := 1048576 }
    (by decide) (List.mem_cons_self _ _) rfl
  refine ⟨⟨by decide, List.mem_cons_self _ _, rfl⟩, ?_, ?_⟩
  · rw [h.1.1]
    rfl
  · rw [h.2.1 (by decide)]
    decide

theorem deviceOptionsLoop_remove_error (before after : List (String × OptionBag)) (d : String)
    (value : OptionBag) (e : String) (hu : Unmarshalling value = Except.error e) :
    deviceOptionsLoop ⟨before ++ [(d, value)] ++ after⟩ = deviceOptionsLoop ⟨before ++ after⟩ := by
  simp [deviceOptionsLoop, List.foldl_append, deviceOptionsStep_error _ d value e hu]

theorem decodeMember_flag (st : deviceOptions × Bool) (member : String × Json)
    (h : st.2 = true) : (decodeMember st member).2 = true := by
  unfold decodeMember
  dsimp only
  split_ifs <;> (try exact h) <;> (split <;> first | exact h | rfl)

theorem foldl_decodeMember_flag (l : List (String × Json)) (st : deviceOptions × Bool)
    (h : st.2 = true) : (l.foldl decodeMember st).2 = true := by
  induction l generalizing st with
  | nil => exact h
  | cons a tl ih => exact ih _ (decodeMember_flag st a h)

theorem decodeMember_bad (st : deviceOptions × Bool) (key : String) (v : Json) (bits : Nat)
    (e : String) (hbits : fieldBits key = some bits)
    (hbad : decodeUint bits v = some (Except.error e)) :
    (decodeMember st (key, v)).2 = true := by
  unfold fieldBits at hbits
  unfold decodeMember
  dsimp only
  split_ifs at hbits with h1 h2 h3 h4 h5 <;> injection hbits with hbits <;> subst hbits
  · simp [h1, hbad]
  · simp [h1, h2, hbad]
  · simp [h1, h2, h3, hbad]
  · simp [h1, h2, h3, h4, hbad]
  · simp [h1, h2, h3, h4, h5, hbad]

theorem Unmarshalling_bad_member (members : List (String × Json)) (key : String) (v : Json)
    (bits : Nat) (e : String) (hmem : (key, v) ∈ members)
    (hbits : fieldBits key = some bits)
    (hbad : decodeUint bits v = some (Except.error e)) :
    ∃ e', Unmarshalling (some (Json.object members)) = Except.error e' := by
  obtain ⟨l₁, l₂, hl⟩ := List.append_of_mem hmem
  have hflag : (members.foldl decodeMember (deviceOptions.zero, false)).2 = true := by
    rw [hl, List.foldl_append, List.foldl_cons]
    exact foldl_decodeMember_flag _ _ (decodeMember_bad _ key v bits e hbits hbad)
  refine ⟨"failed to unmarshall object", ?_⟩
  simp [Unmarshalling, jsonUnmarshal, hflag]

theorem decodeUint_out_of_range (bits : Nat) (i : Int) (h : i < 0 ∨ 2 ^ bits ≤ i) :
    ∃ e, decodeUint bits (Json.number (JsonNumber.integer i)) = some (Except.error e) := by
  have hn : ¬ (0 ≤ i ∧ i < 2 ^ bits) := by
    rintro ⟨h1, h2⟩
    rcases h with h | h
    · omega
    · omega
  refine ⟨"json: cannot unmarshal number into Go struct field", ?_⟩
  simp only [decodeUint, if_neg hn]

/-- C12: a device whose option bag does not decode adds nothing: with its entry or without
it in the options map, `setupDeviceOptions` gives the same host configuration, so the
other devices are processed as usual; the returned error is always nil.  A bag does not
decode when one of its members selects a field and holds a value that the field cannot
take, whatever the other members are: an integer that is negative or does not fit the
width of the field (16 bits for `Weight`, 64 bits for the rates), or a string; so for a
`Weight` of 65536, for a rate of -1, for a string in a numeric field; and neither does a
value without JSON encoding. -/
theorem setupDeviceOptions_skips_undecodable (hostConfig : HostConfig) (spec : Container) :
    (∀ (before after : List (String × OptionBag)) (d : String) (value : OptionBag)
        (e : String),
        spec.BlkioDeviceOptions = ⟨before ++ [(d, value)] ++ after⟩ →
        Unmarshalling value = Except.error e →
        setupDeviceOptions hostConfig spec
          = setupDeviceOptions hostConfig
              { spec with BlkioDeviceOptions := ⟨before ++ after⟩ })
      ∧ (setupDeviceOptions hostConfig spec).2 = none
      ∧ (∀ (members : List (String × Json)) (key : String) (v : Json) (bits : Nat)
          (e : String), (key, v) ∈ members → fieldBits key = some bits →
          decodeUint bits v = some (Except.error e) →
          ∃ e', Unmarshalling (some (Json.object members)) = Except.error e')
      ∧ (∀ (bits : Nat) (i : Int), i < 0 ∨ 2 ^ bits ≤ i →
          ∃ e, decodeUint bits (Json.number (JsonNumber.integer i)) = some (Except.error e))
      ∧ (∀ (bits : Nat) (s : String),
          ∃ e, decodeUint bits (Json.string s) = some (Except.error e))
      ∧ (fieldBits "Weight" = some 16 ∧ fieldBits "ReadIops" = some 64
          ∧ fieldBits "WriteIops" = some 64 ∧ fieldBits "ReadBps" = some 64
          ∧ fieldBits "WriteBps" = some 64)
      ∧ (∃ e, Unmarshalling (some (Json.object
            [("Weight", Json.number (JsonNumber.integer 65536)),
             ("ReadIops", Json.number (JsonNumber.integer 100))])) = Except.error e)
      ∧ (∃ e, Unmarshalling (some (Json.object
            [("Weight", Json.number (JsonNumber.integer 500)),
             ("ReadBps", Json.number (JsonNumber.integer (-1)))])) = Except.error e)
      ∧ (∃ e, Unmarshalling (some (Json.object
            [("Weight", Json.string "heavy"),
             ("WriteBps", Json.number (JsonNumber.integer 7))])) = Except.error e)
      ∧ (∃ e, Unmarshalling none = Except.error e) := by
  refine ⟨?_, rfl, Unmarshalling_bad_member, decodeUint_out_of_range, fun _ _ => ⟨_, rfl⟩,
    by decide, ⟨_, rfl⟩, ⟨_, rfl⟩, ⟨_, rfl⟩, ⟨_, rfl⟩⟩
  intro before after d value e hl hu
  unfold setupDeviceOptions
  simp only [hl, deviceOptionsLoop_remove_error before after d value e hu]

theorem setupDeviceOptions_skips_undecodable_witness :
    setupDeviceOptions HostConfig.fresh
        { Container.zero with
          BlkioDeviceOptions := ⟨[
            ("/dev/sda", some (Json.object [("Weight", Json.number (JsonNumber.integer 500))])),
            ("/dev/sdb", some (Json.object
              [("Weight", Json.number (JsonNumber.integer 65536)),
               ("ReadIops", Json.number (JsonNumber.integer 100))])),
            ("/dev/sdc", some (Json.object
              [("WriteBps", Json.number (JsonNumber.integer 7))]))]⟩ }
      = setupDeviceOptions HostConfig.fresh
        { Container.zero with
          BlkioDeviceOptions := ⟨[
            ("/dev/sda", some (Json.object [("Weight", Json.number (JsonNumber.integer 500))])),
            ("/dev/sdc", some (Json.object
              [("WriteBps", Json.number (JsonNumber.integer 7))]))]⟩ } :=
  (setupDeviceOptions_skips_undecodable HostConfig.fresh
    { Container.zero with
      BlkioDeviceOptions := ⟨[
        ("/dev/sda", some (Json.object [("Weight", Json.number (JsonNumber.integer 500))])),
        ("/dev/sdb", some (Json.object
          [("Weight", Json.number (JsonNumber.integer 65536)),
           ("ReadIops", Json.number (JsonNumber.integer 100))])),
        ("/dev/sdc", some (Json.object
          [("WriteBps", Json.number (JsonNumber.integer 7))]))]⟩ }).1
    [("/dev/sda", some (Json.object [("Weight", Json.number (JsonNumber.integer 500))]))]
    [("/dev/sdc", some (Json.object [("WriteBps", Json.number (JsonNumber.integer 7))]))]
    "/dev/sdb" _ _ rfl rfl

/-! ## setupDevice -/

theorem cut_spec {sep : Char} {s a rest : List Char} (h : cut sep s = some (a, rest)) :
    s = a ++ sep :: rest ∧ sep ∉ a := by
  induction s generalizing a with
  | nil => simp [cut] at h
  | cons c cs ih =>
    unfold cut at h
    split_ifs at h with hc
    · injection h with h
      injection h with h1 h2
      subst h1 h2 hc
      simp
    · cases hcut : cut sep cs with
      | none => simp [hcut] at h
      | some p =>
        obtain ⟨a', rest'⟩ := p
        simp only [hcut] at h
        injection h with h
        injection h with h1 h2
        subst h1 h2
        obtain ⟨e, hn⟩ := ih hcut
        refine ⟨by rw [e]; rfl, ?_⟩
        intro hmem
        rcases List.mem_cons.mp hmem with e' | e'
        · exact hc e'.symm
        · exact hn e'

theorem Split_eq (s : String) :
    Split s ':' = (splitLoop ':' (s.data.count ':') s.data).map String.mk := by
  simp [Split, SplitN, Count]

theorem Split_no_colon (s : String) (h : ':' ∉ s.toList) : Split s ':' = [s] := by
  have h' : ':' ∉ s.data := h
  rw [Split_eq, List.count_eq_zero_of_not_mem h']
  simp [splitLoop]

theorem Split_cons (a rest : String) (h : ':' ∉ a.toList) :
    Split (a ++ ":" ++ rest) ':' = a :: Split rest ':' := by
  have h' : ':' ∉ a.data := h
  have e : (a ++ ":" ++ rest).data = a.data ++ ':' :: rest.data := by simp
  have hc : (a.data ++ ':' :: rest.data).count ':' = rest.data.count ':' + 1 := by
    rw [List.count_append, List.count_eq_zero_of_not_mem h', List.count_cons_self]
    omega
  rw [Split_eq, Split_eq, e, hc]
  simp [splitLoop, cut_append h']

theorem Split_two (a b : String) (ha : ':' ∉ a.toList) (hb : ':' ∉ b.toList) :
    Split (a ++ ":" ++ b) ':' = [a, b] := by
  rw [Split_cons a b ha, Split_no_colon b hb]

theorem Split_three (a b c : String) (ha : ':' ∉ a.toList) (hb : ':' ∉ b.toList)
    (hc : ':' ∉ c.toList) : Split (a ++ ":" ++ b ++ ":" ++ c) ':' = [a, b, c] := by
  have e : a ++ ":" ++ b ++ ":" ++ c = a ++ ":" ++ (b ++ ":" ++ c) := by
    simp [String.append_assoc]
  rw [e, Split_cons a _ ha, Split_cons b c hb, Split_no_colon c hc]

theorem Split_many (a b rest : String) (ha : ':' ∉ a.toList) (hb : ':' ∉ b.toList)
    (hr : ':' ∈ rest.toList) :
    ∃ x y zs, Split (a ++ ":" ++ b ++ ":" ++ rest) ':' = a :: b :: x :: y :: zs := by
  have e : a ++ ":" ++ b ++ ":" ++ rest = a ++ ":" ++ (b ++ ":" ++ rest) := by
    simp [String.append_assoc]
  obtain ⟨x, y, zs, hs⟩ := Split_of_mem rest hr
  exact ⟨x, y, zs, by rw [e, Split_cons a _ ha, Split_cons b rest hb, hs]⟩

theorem deviceStep_of_parts (deviceMappings : List DeviceMapping)
    (p : String × String × Option String)
    (hfree : ':' ∉ p.1.toList ∧ ':' ∉ p.2.1.toList
      ∧ ∀ perm, p.2.2 = some perm → ':' ∉ perm.toList) :
    deviceStep deviceMappings (deviceSpecOf p)
      = some (deviceMappings ++ [mappingOf p]) := by
  obtain ⟨a, b, perm⟩ := p
  obtain ⟨ha, hb, hp⟩ := hfree
  cases perm with
  | none =>
    simp only [deviceSpecOf, deviceStep, Split_two a b ha hb]
    rfl
  | some c =>
    simp only [deviceSpecOf, deviceStep, Split_three a b c ha hb (hp c rfl)]
    rfl

theorem deviceLoop_of_parts (parts : List (String × String × Option String))
    (deviceMappings : List DeviceMapping)
    (hfree : ∀ p ∈ parts, ':' ∉ p.1.toList ∧ ':' ∉ p.2.1.toList
      ∧ ∀ perm, p.2.2 = some perm → ':' ∉ perm.toList) :
    deviceLoop (parts.map deviceSpecOf) deviceMappings
      = some (deviceMappings ++ parts.map mappingOf) := by
  induction parts generalizing deviceMappings with
  | nil => simp [deviceLoop]
  | cons p tl ih =>
    rw [List.map_cons, deviceLoop, deviceStep_of_parts deviceMappings p (hfree p (by simp))]
    simp only
    rw [ih _ (fun q hq => hfree q (by simp [hq]))]
    simp

/-- C13: for a list of device specs that each have exactly two or exactly three
':'-separated parts (a host path, a container path and possibly a permission, all free of
':'), `setupDevice` sets `hostConfig.Devices` to the list, of the same length and in the
same order, of the mappings (host path, container path, permission), where the permission
is the third part of a three-part spec and "rwm" for a two-part spec. -/
theorem setupDevice_mappings (hostConfig : HostConfig) (spec : Container)
    (parts : List (String × String × Option String))
    (hfree : ∀ p ∈ parts, ':' ∉ p.1.toList ∧ ':' ∉ p.2.1.toList
      ∧ ∀ perm, p.2.2 = some perm → ':' ∉ perm.toList)
    (hd : spec.Devices = parts.map deviceSpecOf) :
    setupDevice hostConfig spec
        = some { hostConfig with Devices := parts.map mappingOf }
      ∧ (parts.map mappingOf).length = spec.Devices.length := by
  constructor
  · unfold setupDevice
    rw [hd, deviceLoop_of_parts parts [] hfree]
    simp
  · rw [hd]
    simp

theorem setupDevice_mappings_witness :
    ((∀ p ∈ [("/dev/sda", "/dev/xvda", (none : Option String)),
            ("/dev/sdb", "/dev/xvdb", some "r")],
        ':' ∉ p.1.toList ∧ ':' ∉ p.2.1.toList
          ∧ ∀ perm, p.2.2 = some perm → ':' ∉ perm.toList)
      ∧ ({ Container.zero with Devices := ["/dev/sda:/dev/xvda", "/dev/sdb:/dev/xvdb:r"] }
          : Container).Devices
        = [("/dev/sda", "/dev/xvda", (none : Option String)),
            ("/dev/sdb", "/dev/xvdb", some "r")].map deviceSpecOf)
    ∧ setupDevice HostConfig.fresh
        { Container.zero with Devices := ["/dev/sda:/dev/xvda", "/dev/sdb:/dev/xvdb:r"] }
      = some { HostConfig.fresh with
          Devices := [⟨"/dev/sda", "/dev/xvda", "rwm"⟩, ⟨"/dev/sdb", "/dev/xvdb", "r"⟩] } := by
  have hfree : ∀ p ∈ [("/dev/sda", "/dev/xvda", (none : Option String)),
      ("/dev/sdb", "/dev/xvdb", some "r")],
      ':' ∉ p.1.toList ∧ ':' ∉ p.2.1.toList
        ∧ ∀ perm, p.2.2 = some perm → ':' ∉ perm.toList := by
    intro p hp
    simp only [List.mem_cons, List.mem_singleton, List.not_mem_nil, or_false] at hp
    rcases hp with rfl | rfl
    · exact ⟨by decide, by decide, by simp⟩
    · refine ⟨by decide, by decide, ?_⟩
      intro perm hperm
      injection hperm with hperm
      rw [← hperm]
      decide
  exact ⟨⟨hfree, by decide⟩,
    (setupDevice_mappings HostConfig.fresh
      { Container.zero with Devices := ["/dev/sda:/dev/xvda", "/dev/sdb:/dev/xvdb:r"] }
      [("/dev/sda", "/dev/xvda", none), ("/dev/sdb", "/dev/xvdb", some "r")]
      hfree (by decide)).1⟩

theorem deviceStep_acc (deviceMappings : List DeviceMapping) (device : String) :
    deviceStep deviceMappings device
      = (deviceStep [] device).map (fun r => deviceMappings ++ r) := by
  unfold deviceStep
  dsimp only
  split <;> simp

theorem deviceLoop_acc (devices : List String) (deviceMappings : List DeviceMapping) :
    deviceLoop devices deviceMappings
      = (deviceLoop devices []).map (fun r => deviceMappings ++ r) := by
  induction devices generalizing deviceMappings with
  | nil => simp [deviceLoop]
  | cons d tl ih =>
    rw [deviceLoop, deviceLoop, deviceStep_acc deviceMappings d]
    cases hs : deviceStep [] d with
    | none => simp
    | some r =>
      simp only [Option.map_some']
      rw [ih (deviceMappings ++ r), ih r]
      cases deviceLoop tl [] <;> simp

theorem deviceLoop_append (l₁ l₂ : List String) (deviceMappings : List DeviceMapping) :
    deviceLoop (l₁ ++ l₂) deviceMappings
      = (deviceLoop l₁ deviceMappings).bind (fun r => deviceLoop l₂ r) := by
  induction l₁ generalizing deviceMappings with
  | nil => simp [deviceLoop]
  | cons d tl ih =>
    rw [List.cons_append, deviceLoop, deviceLoop]
    cases deviceStep deviceMappings d with
    | none => simp
    | some r => simpa using ih r

theorem deviceStep_three (a b rest : String) (ha : ':' ∉ a.toList) (hb : ':' ∉ b.toList) :
    deviceStep [] (a ++ ":" ++ b ++ ":" ++ rest)
      = some [{ PathOnHost := a, PathInContainer := b,
                CgroupPermissions := if ':' ∈ rest.toList then "rwm" else rest }] := by
  by_cases hr : ':' ∈ rest.toList
  · obtain ⟨x, y, zs, hs⟩ := Split_many a b rest ha hb hr
    simp only [deviceStep, hs, if_pos hr]
    rfl
  · simp only [deviceStep, Split_three a b rest ha hb hr, if_neg hr]
    rfl

/-- C14, counterexample: the device spec "/dev/a:/dev/b:r:w" is not mapped to
("/dev/a", "/dev/b", "r:w"), as a split into at most three parts would do; it is split into
four parts and mapped to ("/dev/a", "/dev/b", "rwm"). -/
theorem setupDevice_unbounded_split :
    setupDevice HostConfig.fresh { Container.zero with Devices := ["/dev/a:/dev/b:r:w"] }
        = some { HostConfig.fresh with Devices := [⟨"/dev/a", "/dev/b", "rwm"⟩] }
      ∧ setupDevice HostConfig.fresh { Container.zero with Devices := ["/dev/a:/dev/b:r:w"] }
        ≠ some { HostConfig.fresh with Devices := [⟨"/dev/a", "/dev/b", "r:w"⟩] }
      ∧ SplitN "/dev/a:/dev/b:r:w" ':' 3 = ["/dev/a", "/dev/b", "r:w"]
      ∧ Split "/dev/a:/dev/b:r:w" ':' = ["/dev/a", "/dev/b", "r", "w"] := by
  decide

/-- C14, amended: `setupDevice` splits a device spec at every ':' (`strings.Split`), not
into at most three parts as the volume parser does: for a spec `a:b:rest` with `a` and `b`
free of ':', the mapping is `(a, b, rest)` when `rest` is free of ':' and `(a, b, "rwm")`
when `rest` contains a ':'; it stands between the mappings of the specs before it and of
the specs after it, when those all have a mapping. -/
theorem setupDevice_split_all (hostConfig : HostConfig) (spec : Container)
    (before after : List String) (a b rest : String)
    (ha : ':' ∉ a.toList) (hb : ':' ∉ b.toList)
    (hd : spec.Devices = before ++ [a ++ ":" ++ b ++ ":" ++ rest] ++ after) :
    setupDevice hostConfig spec
      = ((deviceLoop before []).bind (fun db =>
          (deviceLoop after []).map (fun da =>
            db ++ [{ PathOnHost := a, PathInContainer := b,
                     CgroupPermissions := if ':' ∈ rest.toList then "rwm" else rest }]
              ++ da))).map
          (fun deviceMappings => { hostConfig with Devices := deviceMappings }) := by
  unfold setupDevice
  rw [hd, deviceLoop_append, deviceLoop_append]
  cases hb' : deviceLoop before [] with
  | none => simp
  | some db =>
    simp only [Option.some_bind]
    rw [deviceLoop, deviceStep_acc, deviceStep_three a b rest ha hb]
    simp only [Option.map_some', deviceLoop, Option.some_bind]
    rw [deviceLoop_acc after (db ++ _)]
    cases hda : deviceLoop after [] <;> simp

theorem setupDevice_split_all_witness :
    (':' ∉ "/dev/a".toList ∧ ':' ∉ "/dev/b".toList
      ∧ ({ Container.zero with Devices := ["x:y", "/dev/a:/dev/b:r:w", "/dev/c:/dev/d:r"] }
          : Container).Devices
        = ["x:y"] ++ ["/dev/a" ++ ":" ++ "/dev/b" ++ ":" ++ "r:w"] ++ ["/dev/c:/dev/d:r"])
    ∧ setupDevice HostConfig.fresh
        { Container.zero with Devices := ["x:y", "/dev/a:/dev/b:r:w", "/dev/c:/dev/d:r"] }
      = some { HostConfig.fresh with
          Devices := [⟨"x", "y", "rwm"⟩, ⟨"/dev/a", "/dev/b", "rwm"⟩,
            ⟨"/dev/c", "/dev/d", "r"⟩] } := by
  refine ⟨⟨by decide, by decide, by decide⟩, ?_⟩
  rw [setupDevice_split_all HostConfig.fresh
    { Container.zero with Devices := ["x:y", "/dev/a:/dev/b:r:w", "/dev/c:/dev/d:r"] }
    ["x:y"] ["/dev/c:/dev/d:r"] "/dev/a" "/dev/b" "r:w" (by decide) (by decide) (by decide)]
  decide

theorem deviceStep_eq_none_iff (deviceMappings : List DeviceMapping) (device : String) :
    deviceStep deviceMappings device = none ↔ ':' ∉ device.toList := by
  constructor
  · intro h hmem
    obtain ⟨r, hr⟩ := deviceStep_isSome deviceMappings device hmem
    rw [hr] at h
    exact absurd h (by simp)
  · intro h
    simp only [deviceStep, Split_no_colon device h]

theorem deviceLoop_eq_none_iff (devices : List String) (deviceMappings : List DeviceMapping) :
    deviceLoop devices deviceMappings = none ↔ ∃ d ∈ devices, ':' ∉ d.toList := by
  induction devices generalizing deviceMappings with
  | nil => simp [deviceLoop]
  | cons d tl ih =>
    rw [deviceLoop]
    cases hs : deviceStep deviceMappings d with
    | none =>
      have hd := (deviceStep_eq_none_iff deviceMappings d).mp hs
      simp only [true_iff]
      exact ⟨d, by simp, hd⟩
    | some r =>
      have hd : ¬ ':' ∉ d.toList := by
        intro c
        rw [(deviceStep_eq_none_iff deviceMappings d).mpr c] at hs
        exact absurd hs (by simp)
      simp only [ih r, List.mem_cons, exists_eq_or_imp, hd, false_or]

theorem Split_length_ge_two_iff (device : String) :
    2 ≤ (Split device ':').length ↔ ':' ∈ device.toList := by
  constructor
  · intro h
    by_contra hc
    rw [Split_no_colon device hc] at h
    simp at h
  · intro h
    obtain ⟨p0, p1, rest, e⟩ := Split_of_mem device h
    rw [e]
    simp

/-- C15: `setupDevice` fails on an index out of range, and so produces no device list, if
and only if some device spec contains no ':'; the index 1 is in range of the parts of a
spec exactly when the spec contains a ':', a spec without ':' (the empty string too) has
the one part itself, and for a list of specs that all contain a ':' the function returns. -/
theorem setupDevice_panics_iff (hostConfig : HostConfig) (spec : Container) :
    (setupDevice hostConfig spec = none ↔ ∃ d ∈ spec.Devices, ':' ∉ d.toList)
      ∧ (∀ d : String, 2 ≤ (Split d ':').length ↔ ':' ∈ d.toList)
      ∧ (∀ d : String, ':' ∉ d.toList → Split d ':' = [d])
      ∧ ((∀ d ∈ spec.Devices, ':' ∈ d.toList) →
          ∃ deviceMappings, deviceMappings.length = spec.Devices.length
            ∧ setupDevice hostConfig spec
              = some { hostConfig with Devices := deviceMappings }) := by
  have hiff : setupDevice hostConfig spec = none ↔ ∃ d ∈ spec.Devices, ':' ∉ d.toList := by
    rw [← deviceLoop_eq_none_iff spec.Devices []]
    unfold setupDevice
    cases deviceLoop spec.Devices [] <;> simp
  refine ⟨hiff, Split_length_ge_two_iff, Split_no_colon, ?_⟩
  intro hall
  obtain ⟨r, hr⟩ := deviceLoop_isSome spec.Devices [] hall
  refine ⟨r, ?_, by simp [setupDevice, hr]⟩
  have hlen : ∀ (l : List String) (acc r : List DeviceMapping),
      deviceLoop l acc = some r → r.length = acc.length + l.length := by
    intro l
    induction l with
    | nil =>
      intro acc r h
      simp only [deviceLoop, Option.some.injEq] at h
      simp [h]
    | cons d tl ih =>
      intro acc r h
      rw [deviceLoop] at h
      cases hs : deviceStep acc d with
      | none => simp [hs] at h
      | some r' =>
        simp only [hs] at h
        have h1 := ih r' r h
        have h2 : r'.length = acc.length + 1 := by
          unfold deviceStep at hs
          dsimp only at hs
          split at hs
          · injection hs with hs
            rw [← hs]
            simp
          · simp at hs
        rw [h1, h2, List.length_cons]
        omega
  simpa using hlen spec.Devices [] r hr

theorem setupDevice_panics_iff_witness :
    setupDevice HostConfig.fresh { Container.zero with Devices := ["/dev/sda:/dev/xvda", ""] }
      = none
    ∧ setupDevice HostConfig.fresh { Container.zero with Devices := ["/dev/sda:/dev/xvda"] }
      ≠ none := by
  constructor
  · exact (setupDevice_panics_iff HostConfig.fresh
      { Container.zero with Devices := ["/dev/sda:/dev/xvda", ""] }).1.mpr
      ⟨"", by simp, by decide⟩
  · rw [Ne, (setupDevice_panics_iff HostConfig.fresh
      { Container.zero with Devices := ["/dev/sda:/dev/xvda"] }).1]
    decide

/-! ## setupVolume: the fields of a bind, concatenation -/

theorem cut_eq_none_iff {sep : Char} {l : List Char} : cut sep l = none ↔ sep ∉ l := by
  constructor
  · intro h hmem
    obtain ⟨a, rest, e⟩ := cut_isSome_of_mem hmem
    rw [e] at h
    exact absurd h (by simp)
  · exact cut_eq_none

theorem splitLoop_length (sep : Char) (k : Nat) (s : List Char) :
    (splitLoop sep k s).length = min k (s.count sep) + 1 := by
  induction k generalizing s with
  | zero => simp [splitLoop]
  | succ k ih =>
    unfold splitLoop
    cases hcut : cut sep s with
    | none =>
      have hn : sep ∉ s := cut_eq_none_iff.mp hcut
      simp [List.count_eq_zero_of_not_mem hn]
    | some p =>
      obtain ⟨a, rest⟩ := p
      obtain ⟨e, hn⟩ := cut_spec hcut
      have hc : s.count sep = rest.count sep + 1 := by
        rw [e, List.count_append, List.count_eq_zero_of_not_mem hn, List.count_cons_self]
        omega
      simp only [List.length_cons, ih rest, hc]
      omega

theorem Split_length (s : String) : (Split s ':').length = Count s ':' + 1 := by
  rw [Split_eq, List.length_map, splitLoop_length]
  simp [Count]

theorem SplitN_three_length (s : String) :
    (SplitN s ':' 3).length = min 2 (Count s ':') + 1 := by
  simp [SplitN, splitLoop_length, Count]

theorem Count_sprintf3 (a b c : String) :
    Count (sprintf3 a b c) ':' = Count a ':' + Count b ':' + Count c ':' + 2 := by
  simp only [Count, sprintf3, String.data_append, List.count_append]
  have h1 : List.count ':' [':'] = 1 := by decide
  rw [h1]
  omega

theorem Count_eq_zero {s : String} (h : ':' ∉ s.toList) : Count s ':' = 0 :=
  List.count_eq_zero_of_not_mem h

theorem three_way (s : String) :
    ':' ∉ s.toList
      ∨ (∃ a b : String, ':' ∉ a.toList ∧ ':' ∉ b.toList ∧ s = a ++ ":" ++ b)
      ∨ (∃ a b c : String, ':' ∉ a.toList ∧ ':' ∉ b.toList ∧ s = a ++ ":" ++ b ++ ":" ++ c) := by
  by_cases h : ':' ∈ s.data
  · right
    obtain ⟨a, rest, hcut⟩ := cut_isSome_of_mem h
    obtain ⟨e, ha⟩ := cut_spec hcut
    by_cases h' : ':' ∈ rest
    · right
      obtain ⟨b, rest', hcut'⟩ := cut_isSome_of_mem h'
      obtain ⟨e', hb⟩ := cut_spec hcut'
      refine ⟨⟨a⟩, ⟨b⟩, ⟨rest'⟩, ha, hb, ?_⟩
      apply String.ext
      simp [e, e']
    · left
      refine ⟨⟨a⟩, ⟨rest⟩, ha, h', ?_⟩
      apply String.ext
      simp [e]
  · left
    exact h

theorem volumeLoop_singleton_binds_count (reference : Reference) (dataVolume : String) :
    ∀ b ∈ (volumeLoop reference [dataVolume]).binds,
      2 ≤ Count b ':'
        ∧ (Count dataVolume ':' ≤ 2 → ':' ∉ reference.DockerRoot.toList → Count b ':' = 2) := by
  intro b hb
  rcases three_way dataVolume with h1 | ⟨a, c, ha, hc, e⟩ | ⟨a, c, m, ha, hc, e⟩
  · rw [volumeLoop_single_part reference dataVolume h1] at hb
    simp at hb
  · rw [e, volumeLoop_two_parts reference _ a c (SplitN_three_two a c ha hc)] at hb
    have hrw : Count "rw" ':' = 0 := by decide
    split_ifs at hb with hred
    · simp only [List.mem_cons, List.mem_singleton, List.not_mem_nil, or_false] at hb
      rcases hb with rfl | rfl
      · rw [Count_sprintf3, hrw, Count_eq_zero hc]
        refine ⟨by omega, fun _ hroot => ?_⟩
        rw [Count_eq_zero hroot]
      · rw [Count_sprintf3, hrw]
        refine ⟨by omega, fun _ hroot => ?_⟩
        rw [Count_eq_zero hroot]
    · simp only [List.mem_singleton] at hb
      rw [hb, Count_sprintf3, hrw, Count_eq_zero ha, Count_eq_zero hc]
      exact ⟨by omega, fun _ _ => rfl⟩
  · rw [e, volumeLoop_three_parts reference _ a c m (SplitN_three_three a c m ha hc)] at hb
    have hcount : Count (a ++ ":" ++ c ++ ":" ++ m) ':' = Count m ':' + 2 := by
      have := Count_sprintf3 a c m
      rw [Count_eq_zero ha, Count_eq_zero hc] at this
      simpa [sprintf3] using this
    rw [e, hcount]
    split_ifs at hb with hred
    · simp only [List.mem_cons, List.mem_singleton, List.not_mem_nil, or_false] at hb
      rcases hb with rfl | rfl
      · rw [Count_sprintf3, Count_eq_zero hc]
        refine ⟨by omega, fun hm hroot => ?_⟩
        rw [Count_eq_zero hroot]
        omega
      · rw [Count_sprintf3]
        refine ⟨by omega, fun hm hroot => ?_⟩
        rw [Count_eq_zero hroot]
        omega
    · simp only [List.mem_singleton] at hb
      rw [hb, Count_sprintf3, Count_eq_zero ha, Count_eq_zero hc]
      exact ⟨by omega, fun hm _ => by omega⟩

theorem mem_volumeLoop_binds (reference : Reference) (l : List String) (b : String)
    (hb : b ∈ (volumeLoop reference l).binds) :
    ∃ dataVolume ∈ l, b ∈ (volumeLoop reference [dataVolume]).binds := by
  induction l with
  | nil => simp [volumeLoop] at hb
  | cons a tl ih =>
    have e : a :: tl = [a] ++ tl := rfl
    rw [e, volumeLoop_append_binds, List.mem_append] at hb
    rcases hb with h | h
    · exact ⟨a, by simp, h⟩
    · obtain ⟨dv, hdv, hmem⟩ := ih h
      exact ⟨dv, by simp [hdv], hmem⟩

/-- C16, counterexample: the data-volume spec "a:b:c:d" produces the bind "a:b:c:d", which
splits on ':' into four parts. -/
theorem setupVolume_bind_four_fields :
    ¬ ∀ b ∈ (setupVolume Config.fresh HostConfig.fresh
        { Container.zero with DataVolumes := ["a:b:c:d"] }
        ⟨GoMap.empty, "/var/lib/docker"⟩).2.Binds, (Split b ':').length = 3 := by
  decide

/-- C16, amended: the binds of `setupVolume` are appended to those already in the host
configuration, and every bind it produces holds at least two ':', so that splitting it on
':' yields at least three parts and the split into at most three parts yields exactly
three; splitting it on ':' yields exactly three parts when no data-volume spec has more
than two ':' and the Docker root has no ':'. -/
theorem setupVolume_binds_fields (config : Config) (hostConfig : HostConfig)
    (containerSpec : Container) (reference : Reference) :
    (setupVolume config hostConfig containerSpec reference).2.Binds
        = hostConfig.Binds ++ (volumeLoop reference containerSpec.DataVolumes).binds
      ∧ (∀ b ∈ (volumeLoop reference containerSpec.DataVolumes).binds,
          3 ≤ (Split b ':').length ∧ (SplitN b ':' 3).length = 3)
      ∧ ((∀ dataVolume ∈ containerSpec.DataVolumes, Count dataVolume ':' ≤ 2) →
          ':' ∉ reference.DockerRoot.toList →
          ∀ b ∈ (volumeLoop reference containerSpec.DataVolumes).binds,
            (Split b ':').length = 3) := by
  refine ⟨setupVolume_Binds _ _ _ _, ?_, ?_⟩
  · intro b hb
    obtain ⟨dv, -, hmem⟩ := mem_volumeLoop_binds reference _ b hb
    have h := (volumeLoop_singleton_binds_count reference dv b hmem).1
    rw [Split_length, SplitN_three_length]
    omega
  · intro hcount hroot b hb
    obtain ⟨dv, hdv, hmem⟩ := mem_volumeLoop_binds reference _ b hb
    have h := (volumeLoop_singleton_binds_count reference dv b hmem).2 (hcount dv hdv) hroot
    rw [Split_length, h]

theorem setupVolume_binds_fields_witness :
    (setupVolume Config.fresh HostConfig.fresh
        { Container.zero with
          DataVolumes := ["/data", "/a:/b", "/var/lib/docker:/var/lib/docker:ro"] }
        ⟨GoMap.empty, "/mnt/data"⟩).2.Binds
      = ["/a:/b:rw", "/mnt/data:/var/lib/docker:ro", "/mnt/data:/mnt/data:ro"]
    ∧ ∀ b ∈ (volumeLoop ⟨GoMap.empty, "/mnt/data"⟩
        ({ Container.zero with
          DataVolumes := ["/data", "/a:/b", "/var/lib/docker:/var/lib/docker:ro"] }
          : Container).DataVolumes).binds, (Split b ':').length = 3 := by
  have h := setupVolume_binds_fields Config.fresh HostConfig.fresh
    { Container.zero with
      DataVolumes := ["/data", "/a:/b", "/var/lib/docker:/var/lib/docker:ro"] }
    ⟨GoMap.empty, "/mnt/data"⟩
  refine ⟨?_, h.2.2 (by decide) (by decide)⟩
  rw [h.1]
  decide

/-- C18: the binds of `setupVolume` for the spec list `l₁ ++ l₂` are the binds already in
the host configuration, then the binds for `l₁`, then the binds for `l₂`; from a host
configuration without binds they are the result for `l₁` followed by the result for `l₂`;
the declared-volumes set for `l₁ ++ l₂` is the union of the sets for `l₁` and for `l₂`; and
`RancherToDockerConfigs`, which starts from no binds, returns as `Binds` exactly the
binds of the data volumes (when no device spec makes it fail). -/
theorem setupVolume_append (config : Config) (hostConfig : HostConfig)
    (containerSpec : Container) (reference : Reference) (l₁ l₂ : List String) :
    (setupVolume config hostConfig
          { containerSpec with DataVolumes := l₁ ++ l₂ } reference).2.Binds
        = hostConfig.Binds ++ (volumeLoop reference l₁).binds ++ (volumeLoop reference l₂).binds
      ∧ (hostConfig.Binds = [] →
          (setupVolume config hostConfig
              { containerSpec with DataVolumes := l₁ ++ l₂ } reference).2.Binds
            = (setupVolume config hostConfig
                { containerSpec with DataVolumes := l₁ } reference).2.Binds
              ++ (setupVolume config hostConfig
                { containerSpec with DataVolumes := l₂ } reference).2.Binds)
      ∧ (∀ k, k ∈ (setupVolume config hostConfig
              { containerSpec with DataVolumes := l₁ ++ l₂ } reference).1.Volumes.keys
          ↔ k ∈ (setupVolume config hostConfig
                { containerSpec with DataVolumes := l₁ } reference).1.Volumes.keys
            ∨ k ∈ (setupVolume config hostConfig
                { containerSpec with DataVolumes := l₂ } reference).1.Volumes.keys)
      ∧ ((∀ d ∈ containerSpec.Devices, ':' ∈ d.toList) →
          ∃ config' hostConfig',
            RancherToDockerConfigs containerSpec reference = some (config', hostConfig')
              ∧ hostConfig'.Binds = (volumeLoop reference containerSpec.DataVolumes).binds) := by
  refine ⟨?_, ?_, ?_, ?_⟩
  · rw [setupVolume_Binds]
    show hostConfig.Binds ++ (volumeLoop reference (l₁ ++ l₂)).binds = _
    rw [volumeLoop_append_binds, List.append_assoc]
  · intro hfresh
    rw [setupVolume_Binds, setupVolume_Binds, setupVolume_Binds, hfresh]
    show [] ++ (volumeLoop reference (l₁ ++ l₂)).binds
      = ([] ++ (volumeLoop reference l₁).binds) ++ ([] ++ (volumeLoop reference l₂).binds)
    rw [volumeLoop_append_binds]
    simp
  · intro k
    rw [setupVolume_Volumes, setupVolume_Volumes, setupVolume_Volumes]
    exact volumeLoop_append_keys reference l₁ l₂ k
  · intro hd
    obtain ⟨c, h, hr, hb, -⟩ := RancherToDockerConfigs_volumes containerSpec reference hd
    exact ⟨c, h, hr, hb⟩

theorem setupVolume_append_witness :
    (setupVolume Config.fresh HostConfig.fresh
        { Container.zero with
          DataVolumes := ["/a:/b", "/var/lib/docker:/var/lib/docker"] ++ ["/c", "/d:/e:ro"] }
        ⟨GoMap.empty, "/mnt/data"⟩).2.Binds
      = ["/a:/b:rw", "/mnt/data:/var/lib/docker:rw", "/mnt/data:/mnt/data:rw", "/d:/e:ro"] := by
  rw [(setupVolume_append Config.fresh HostConfig.fresh Container.zero
    ⟨GoMap.empty, "/mnt/data"⟩ ["/a:/b", "/var/lib/docker:/var/lib/docker"]
    ["/c", "/d:/e:ro"]).1]
  decide

/-! ## setupPorts: the binding map -/

theorem GoMap.mem_keys_iff_get? {K V : Type} [DecidableEq K] (m : GoMap K V) (k : K) :
    k ∈ m.keys ↔ m.get? k ≠ none := by
  obtain ⟨l⟩ := m
  simp only [GoMap.keys, GoMap.get?]
  induction l with
  | nil => simp [GoMap.lookupEntries]
  | cons hd tl ih =>
    obtain ⟨a, b⟩ := hd
    by_cases h : a = k
    · simp [GoMap.lookupEntries, h]
    · have h' : ¬ k = a := fun e => h e.symm
      simp only [List.map_cons, List.mem_cons, h', false_or, GoMap.lookupEntries, if_neg h]
      exact ih

theorem GoMap.mem_storeEntries {K V : Type} [DecidableEq K] (k : K) (v : V)
    (l : List (K × V)) (e : K × V) (he : e ∈ GoMap.storeEntries k v l) :
    e = (k, v) ∨ e ∈ l := by
  induction l with
  | nil =>
    simp only [GoMap.storeEntries, List.mem_singleton] at he
    exact Or.inl he
  | cons hd tl ih =>
    obtain ⟨a, b⟩ := hd
    unfold GoMap.storeEntries at he
    split_ifs at he with h
    · rcases List.mem_cons.mp he with h1 | h1
      · exact Or.inl h1
      · exact Or.inr (List.mem_cons_of_mem _ h1)
    · rcases List.mem_cons.mp he with h1 | h1
      · exact Or.inr (by rw [h1]; exact List.mem_cons_self _ _)
      · rcases ih h1 with h2 | h2
        · exact Or.inl h2
        · exact Or.inr (List.mem_cons_of_mem _ h2)

theorem GoMap.storeEntries_keys_nodup {K V : Type} [DecidableEq K] (k : K) (v : V)
    (l : List (K × V)) (h : (l.map Prod.fst).Nodup) :
    ((GoMap.storeEntries k v l).map Prod.fst).Nodup := by
  induction l with
  | nil => simp [GoMap.storeEntries]
  | cons hd tl ih =>
    obtain ⟨a, b⟩ := hd
    rw [List.map_cons, List.nodup_cons] at h
    by_cases hk : a = k
    · subst hk
      simp only [GoMap.storeEntries, if_true, List.map_cons, List.nodup_cons]
      exact h
    · simp only [GoMap.storeEntries, if_neg hk, List.map_cons, List.nodup_cons]
      refine ⟨?_, ih h.2⟩
      rw [GoMap.mem_storeEntries_keys]
      rintro (c | c)
      · exact hk c
      · exact h.1 c

theorem GoMap.sum_storeEntries_none {K α : Type} [DecidableEq K] (k : K) (v : List α)
    (l : List (K × List α)) (h : GoMap.lookupEntries k l = none) :
    ((GoMap.storeEntries k v l).map (fun e => e.2.length)).sum
      = (l.map (fun e => e.2.length)).sum + v.length := by
  induction l with
  | nil => simp [GoMap.storeEntries]
  | cons hd tl ih =>
    obtain ⟨a, b⟩ := hd
    unfold GoMap.lookupEntries at h
    split_ifs at h with hk
    simp only [GoMap.storeEntries, if_neg hk, List.map_cons, List.sum_cons, ih h]
    omega

theorem GoMap.sum_storeEntries_some {K α : Type} [DecidableEq K] (k : K) (v old : List α)
    (l : List (K × List α)) (h : GoMap.lookupEntries k l = some old) :
    ((GoMap.storeEntries k v l).map (fun e => e.2.length)).sum + old.length
      = (l.map (fun e => e.2.length)).sum + v.length := by
  induction l with
  | nil => simp [GoMap.lookupEntries] at h
  | cons hd tl ih =>
    obtain ⟨a, b⟩ := hd
    unfold GoMap.lookupEntries at h
    split_ifs at h with hk
    · injection h with h
      subst h
      simp only [GoMap.storeEntries, if_pos hk, List.map_cons, List.sum_cons]
      omega
    · have := ih h
      simp only [GoMap.storeEntries, if_neg hk, List.map_cons, List.sum_cons]
      omega

theorem portsStep_total (st : PortsLoop) (e : PublicEndpoint) :
    ((portsStep st e).bindings.entries.map (fun x => x.2.length)).sum
      = (st.bindings.entries.map (fun x => x.2.length)).sum
        + if e.PrivatePort ≠ 0 then 1 else 0 := by
  unfold portsStep
  by_cases h : e.PrivatePort ≠ 0
  · simp only [if_pos h]
    cases hg : st.bindings.get? (portKey e.PrivatePort e.Protocol) with
    | none =>
      simp only [GoMap.store]
      rw [GoMap.sum_storeEntries_none _ _ _ hg]
      simp
    | some old =>
      simp only [GoMap.store]
      have := GoMap.sum_storeEntries_some (portKey e.PrivatePort e.Protocol)
        (old ++ [{ HostIP := e.BindIpAddress, HostPort := Itoa e.PublicPort }]) old _ hg
      simp only [List.length_append, List.length_singleton] at this
      omega
  · simp only [if_neg h]
    simp

theorem foldl_portsStep_total (l : List PublicEndpoint) (st : PortsLoop) :
    ((l.foldl portsStep st).bindings.entries.map (fun x => x.2.length)).sum
      = (st.bindings.entries.map (fun x => x.2.length)).sum
        + (l.filter (fun e => decide (e.PrivatePort ≠ 0))).length := by
  induction l generalizing st with
  | nil => simp
  | cons a tl ih =>
    rw [List.foldl_cons, ih, portsStep_total, List.filter_cons]
    by_cases h : a.PrivatePort ≠ 0
    · simp only [if_pos h, decide_eq_true h, if_true, List.length_cons]
      omega
    · have hd : decide (a.PrivatePort ≠ 0) = false := decide_eq_false h
      simp only [if_neg h, hd]
      simp

theorem portsStep_invariant (st : PortsLoop) (e : PublicEndpoint)
    (h : st.bindings.keys.Nodup ∧ ∀ x ∈ st.bindings.entries, x.2 ≠ []) :
    (portsStep st e).bindings.keys.Nodup ∧ ∀ x ∈ (portsStep st e).bindings.entries, x.2 ≠ [] := by
  have hstore : ∀ v : List PortBinding, v ≠ [] →
      (st.bindings.store (portKey e.PrivatePort e.Protocol) v).keys.Nodup
        ∧ ∀ x ∈ (st.bindings.store (portKey e.PrivatePort e.Protocol) v).entries, x.2 ≠ [] := by
    intro v hv
    refine ⟨GoMap.storeEntries_keys_nodup _ _ _ h.1, ?_⟩
    intro x hx
    rcases GoMap.mem_storeEntries _ _ _ x hx with hx' | hx'
    · rw [hx']
      exact hv
    · exact h.2 x hx'
  unfold portsStep
  split_ifs with h0
  · cases hg : st.bindings.get? (portKey e.PrivatePort e.Protocol) with
    | none =>
      simp only [hg]
      exact hstore [{ HostIP := e.BindIpAddress, HostPort := Itoa e.PublicPort }] (by simp)
    | some old =>
      simp only [hg]
      exact hstore (old ++ [{ HostIP := e.BindIpAddress, HostPort := Itoa e.PublicPort }])
        (by simp)
  · exact h

theorem foldl_portsStep_invariant (l : List PublicEndpoint) (st : PortsLoop)
    (h : st.bindings.keys.Nodup ∧ ∀ x ∈ st.bindings.entries, x.2 ≠ []) :
    (l.foldl portsStep st).bindings.keys.Nodup
      ∧ ∀ x ∈ (l.foldl portsStep st).bindings.entries, x.2 ≠ [] := by
  induction l generalizing st with
  | nil => exact h
  | cons a tl ih => exact ih _ (portsStep_invariant st a h)

/-- C17: the keys of the port-binding map that `setupPorts` builds are the keys of the
exposed-port set; the map has one entry per key and the binding list of every entry is
non-empty; the number of bindings over all entries is the number of endpoints with a
non-zero private port; and that map is what `hostConfig.PortBindings` is set to when it is
not empty. -/
theorem setupPorts_binding_map_invariants (config : Config) (hostConfig : HostConfig)
    (containerSpec : Container) :
    (∀ k, k ∈ (portsLoop containerSpec.PublicEndpoints).bindings.keys
        ↔ k ∈ (setupPorts config hostConfig containerSpec).1.ExposedPorts.keys)
      ∧ (portsLoop containerSpec.PublicEndpoints).bindings.keys.Nodup
      ∧ (∀ x ∈ (portsLoop containerSpec.PublicEndpoints).bindings.entries, x.2 ≠ [])
      ∧ ((portsLoop containerSpec.PublicEndpoints).bindings.entries.map
            (fun x => x.2.length)).sum
          = (containerSpec.PublicEndpoints.filter
              (fun e => decide (e.PrivatePort ≠ 0))).length
      ∧ (setupPorts config hostConfig containerSpec).2.PortBindings
          = (if 0 < (portsLoop containerSpec.PublicEndpoints).bindings.len then
              some (portsLoop containerSpec.PublicEndpoints).bindings
            else hostConfig.PortBindings) := by
  have hinv := foldl_portsStep_invariant containerSpec.PublicEndpoints
    ⟨GoMap.empty, GoMap.empty⟩ ⟨by simp [GoMap.empty, GoMap.keys], by simp [GoMap.empty]⟩
  refine ⟨?_, hinv.1, hinv.2, ?_, setupPorts_PortBindings _ _ _⟩
  · intro k
    rw [setupPorts_ExposedPorts, GoMap.mem_keys_iff_get?, portsLoop_bindings_get?]
    rw [portsLoop, foldl_portsStep_exposed_keys]
    simp only [GoMap.not_mem_keys_empty, false_or]
    rw [← bindingsOf_ne_nil_iff]
    by_cases hb : bindingsOf k containerSpec.PublicEndpoints = [] <;> simp [hb]
  · have := foldl_portsStep_total containerSpec.PublicEndpoints ⟨GoMap.empty, GoMap.empty⟩
    simpa [portsLoop, GoMap.empty] using this

theorem setupPorts_binding_map_invariants_witness :
    ((portsLoop ({ Container.zero with
          PublicEndpoints := [⟨80, "tcp", 8080, "0.0.0.0"⟩, ⟨0, "tcp", 1, ""⟩,
            ⟨53, "udp", 53, ""⟩, ⟨80, "tcp", 8081, "127.0.0.1"⟩] } : Container
        ).PublicEndpoints).bindings.entries.map (fun x => x.2.length)).sum = 3
    ∧ (portsLoop ({ Container.zero with
          PublicEndpoints := [⟨80, "tcp", 8080, "0.0.0.0"⟩, ⟨0, "tcp", 1, ""⟩,
            ⟨53, "udp", 53, ""⟩, ⟨80, "tcp", 8081, "127.0.0.1"⟩] } : Container
        ).PublicEndpoints).bindings.keys = ["80/tcp", "53/udp"] := by
  constructor
  · rw [(setupPorts_binding_map_invariants Config.fresh HostConfig.fresh
      { Container.zero with
        PublicEndpoints := [⟨80, "tcp", 8080, "0.0.0.0"⟩, ⟨0, "tcp", 1, ""⟩,
          ⟨53, "udp", 53, ""⟩, ⟨80, "tcp", 8081, "127.0.0.1"⟩] }).2.2.2.1]
    decide
  · decide

/-! ## convertEnv and ToMapString -/

theorem foldl_convertEnv (l : List (String × GoValue)) (acc : List String) :
    l.foldl (fun r kv => r ++ [kv.1 ++ ":" ++ Sprint kv.2]) acc
      = acc ++ l.map (fun kv => kv.1 ++ ":" ++ Sprint kv.2) := by
  induction l generalizing acc with
  | nil => simp
  | cons a tl ih => simp [ih]

/-- C19: `convertEnv` returns, in the order in which the entries of the map are visited,
one string per entry, made of the key, a ':' and the `%v` rendering of the value; so the
result has as many strings as the map has keys, visiting the entries in another order
permutes it, it is empty for an empty map, and the entry `PATH ↦ "/bin"` gives
"PATH:/bin", not "PATH=/bin". -/
theorem convertEnv_entries (envs : GoMap String GoValue) :
    convertEnv envs = envs.entries.map (fun kv => kv.1 ++ ":" ++ Sprint kv.2)
      ∧ (convertEnv envs).length = envs.len
      ∧ (∀ envs' : GoMap String GoValue, envs.entries.Perm envs'.entries →
          (convertEnv envs).Perm (convertEnv envs'))
      ∧ convertEnv GoMap.empty = []
      ∧ convertEnv ⟨[("PATH", GoValue.string "/bin")]⟩ = ["PATH:/bin"]
      ∧ convertEnv ⟨[("PATH", GoValue.string "/bin")]⟩ ≠ ["PATH=/bin"] := by
  have h : ∀ e : GoMap String GoValue,
      convertEnv e = e.entries.map (fun kv => kv.1 ++ ":" ++ Sprint kv.2) := by
    intro e
    rw [convertEnv, foldl_convertEnv]
    simp
  refine ⟨h envs, ?_, ?_, rfl, by decide, by decide⟩
  · rw [h envs]
    simp [GoMap.len]
  · intro envs' hperm
    rw [h envs, h envs']
    exact hperm.map _

theorem convertEnv_entries_witness :
    convertEnv ⟨[("DEBUG", GoValue.bool true), ("PORT", GoValue.int 8080),
        ("NAME", GoValue.string "web"), ("NONE", GoValue.nil)]⟩
      = ["DEBUG:true", "PORT:8080", "NAME:web", "NONE:<nil>"] := by
  rw [(convertEnv_entries _).1]
  decide

theorem foldl_ToMapString_keys (l : List (String × GoValue)) (r : GoMap String String)
    (k : String) :
    k ∈ (l.foldl (fun r kv => r.store kv.1 (InterfaceToString kv.2)) r).keys
      ↔ k ∈ r.keys ∨ k ∈ l.map Prod.fst := by
  induction l generalizing r with
  | nil => simp
  | cons a tl ih =>
    rw [List.foldl_cons, ih, GoMap.mem_keys_store]
    simp only [List.map_cons, List.mem_cons]
    tauto

theorem foldl_ToMapString_get? (l : List (String × GoValue)) (hnd : (l.map Prod.fst).Nodup)
    (r : GoMap String String) (k : String) :
    (l.foldl (fun r kv => r.store kv.1 (InterfaceToString kv.2)) r).get? k
      = match GoMap.lookupEntries k l with
        | some v => some (InterfaceToString v)
        | none => r.get? k := by
  induction l generalizing r with
  | nil => simp [GoMap.lookupEntries]
  | cons a tl ih =>
    obtain ⟨a, v⟩ := a
    rw [List.map_cons, List.nodup_cons] at hnd
    rw [List.foldl_cons, ih hnd.2, GoMap.get?_store]
    by_cases hk : a = k
    · subst hk
      have hnone : GoMap.lookupEntries a tl = none := by
        by_contra hc
        exact hnd.1 ((GoMap.mem_keys_iff_get? ⟨tl⟩ a).mpr hc)
      simp [GoMap.lookupEntries, hnone]
    · simp [GoMap.lookupEntries, hk]

theorem ToMapString_get? (m : GoMap String GoValue) (hnd : m.keys.Nodup) (k : String) :
    (ToMapString m).get? k = (m.get? k).map InterfaceToString := by
  rw [ToMapString, foldl_ToMapString_get? m.entries hnd]
  simp only [GoMap.get?]
  cases GoMap.lookupEntries k m.entries <;> rfl

/-- C20: for a map `m` (one entry per key), `ToMapString m` has the same keys as `m`; a key
whose value is a string maps to that string and a key whose value is not a string maps to
the empty string; `InterfaceToString` returns the string of a string value and "" for
every other value, nil, a boolean and a number among them. -/
theorem ToMapString_entries (m : GoMap String GoValue) (hnd : m.keys.Nodup) :
    (∀ k, k ∈ (ToMapString m).keys ↔ k ∈ m.keys)
      ∧ (∀ k s, m.get? k = some (GoValue.string s) → (ToMapString m).get? k = some s)
      ∧ (∀ k v, m.get? k = some v → (∀ s, v ≠ GoValue.string s) →
          (ToMapString m).get? k = some "")
      ∧ (∀ s, InterfaceToString (GoValue.string s) = s)
      ∧ (∀ v, (∀ s, v ≠ GoValue.string s) → InterfaceToString v = "")
      ∧ InterfaceToString GoValue.nil = ""
      ∧ InterfaceToString (GoValue.bool true) = ""
      ∧ InterfaceToString (GoValue.int 42) = "" := by
  have hother : ∀ v, (∀ s, v ≠ GoValue.string s) → InterfaceToString v = "" := by
    intro v hv
    cases v with
    | string s => exact absurd rfl (hv s)
    | nil => rfl
    | bool b => rfl
    | int i => rfl
    | other r => rfl
  refine ⟨?_, ?_, ?_, fun _ => rfl, hother, rfl, rfl, rfl⟩
  · intro k
    rw [ToMapString, foldl_ToMapString_keys]
    have hempty : k ∉ (GoMap.empty : GoMap String String).keys := GoMap.not_mem_keys_empty k
    constructor
    · rintro (h | h)
      · exact absurd h hempty
      · exact h
    · exact Or.inr
  · intro k s hk
    rw [ToMapString_get? m hnd, hk]
    rfl
  · intro k v hk hv
    rw [ToMapString_get? m hnd, hk, Option.map_some', hother v hv]

theorem ToMapString_entries_witness :
    (⟨[("app", GoValue.string "web"), ("replicas", GoValue.int 3),
        ("debug", GoValue.bool false), ("owner", GoValue.nil)]⟩ : GoMap String GoValue
      ).keys.Nodup
    ∧ (ToMapString ⟨[("app", GoValue.string "web"), ("replicas", GoValue.int 3),
        ("debug", GoValue.bool false), ("owner", GoValue.nil)]⟩).get? "app" = some "web"
    ∧ (ToMapString ⟨[("app", GoValue.string "web"), ("replicas", GoValue.int 3),
        ("debug", GoValue.bool false), ("owner", GoValue.nil)]⟩).get? "replicas" = some "" := by
  have h := ToMapString_entries
    ⟨[("app", GoValue.string "web"), ("replicas", GoValue.int 3),
      ("debug", GoValue.bool false), ("owner", GoValue.nil)]⟩ (by decide)
  refine ⟨by decide, h.2.1 "app" "web" (by decide), ?_⟩
  exact h.2.2.1 "replicas" (GoValue.int 3) (by decide) (by intro s; exact GoValue.noConfusion)

end Convert
